import Mathlib

/-!
Verification of the MAGNUS (MANUS-like) repository against its
natural-language specification of the Task Execution & Tool Orchestration
Engine.

The development shallowly embeds three layers of the repository:

* the frontend task page (`src/unnamed/part_004`, a React component whose
  handlers `cancelTask`, `retryTask`, `handleTaskUpdate` and
  `handleTaskProgress` are the repository's only implementations of the
  control surface and event application);
* the seeded tool catalog and the Python tool implementations embedded in
  the SQL seed script (`src/unnamed/part_010`): `shell_exec`,
  `json_parse`, `browser_navigate`;
* the execution engine itself (Plan Compiler, Scheduler, State Tracker),
  which does not appear in the repository's sources and is therefore
  modelled from the specification, with each such definition marked
  `Modelled from the spec:` in its doc comment.
-/

/-! ## Frontend task state (src/unnamed/part_004)

The React `TasksPage` component keeps an array of task objects in local
state.  Each task carries a string status, an integer progress, an
optional error message, an optional current-step label and an array of
step objects each with a numeric id, a name and a string status.  The
handlers below are direct translations of the arrow functions in the
component. -/

namespace Frontend

/-- One element of a task's `steps` array in `src/unnamed/part_004`
(fields `id`, `name`, `status`; `duration` is omitted as no handler reads
or writes it). -/
structure FStep where
  id : Nat
  name : String
  status : String
deriving DecidableEq, Repr

/-- One task object of the `tasks` state array in `src/unnamed/part_004`.
Only the fields read or written by the handlers under study are kept. -/
structure FTask where
  id : String
  status : String
  progress : Int
  errorMessage : Option String
  currentStep : Option String
  steps : List FStep
deriving DecidableEq, Repr

/-- Translation of `cancelTask` (src/unnamed/part_004 lines 245-255), the
confirmed branch: `setTasks(prev => prev.map(task => task.id === taskId ?
\x7b ...task, status: 'cancelled' \x7d : task))`.  Only the task's own
`status` field is rewritten; the `steps` array is left untouched. -/
def cancelTask (tasks : List FTask) (taskId : String) : List FTask :=
  tasks.map (fun task => if task.id = taskId then { task with status := "cancelled" } else task)

/-- Translation of `retryTask` (src/unnamed/part_004 lines 257-265):
`setTasks(prev => prev.map(task => task.id === taskId ? \x7b ...task,
status: 'pending', progress: 0, error_message: null \x7d : task))`. -/
def retryTask (tasks : List FTask) (taskId : String) : List FTask :=
  tasks.map (fun task =>
    if task.id = taskId then
      { task with status := "pending", progress := 0, errorMessage := none }
    else task)

/-- Payload of a `task_updated` socket event as consumed by
`handleTaskUpdate` (src/unnamed/part_004 lines 215-219).  The JavaScript
object spread `\x7b ...task, ...taskData.task \x7d` overwrites exactly the
fields present on `taskData.task`; absent fields keep the previous value,
which the embedding renders with `Option` fields and `Option.getD`.  The
`id` field is always present since the handler matches on it. -/
structure TaskPatch where
  id : String
  status : Option String
  progress : Option Int
  errorMessage : Option (Option String)
  currentStep : Option (Option String)
  steps : Option (List FStep)
deriving DecidableEq, Repr

/-- Field-wise overwrite realising the object spread
`\x7b ...task, ...patch \x7d` of `handleTaskUpdate`. -/
def mergeTask (task : FTask) (patch : TaskPatch) : FTask :=
  { id := patch.id
    status := patch.status.getD task.status
    progress := patch.progress.getD task.progress
    errorMessage := (patch.errorMessage).getD task.errorMessage
    currentStep := (patch.currentStep).getD task.currentStep
    steps := patch.steps.getD task.steps }

/-- Translation of `handleTaskUpdate` (src/unnamed/part_004 lines
215-219). -/
def handleTaskUpdate (tasks : List FTask) (patch : TaskPatch) : List FTask :=
  tasks.map (fun task => if task.id = patch.id then mergeTask task patch else task)

/-- Payload of a `task_progress` socket event as consumed by
`handleTaskProgress` (src/unnamed/part_004 lines 221-227). -/
structure ProgressEvent where
  taskId : String
  progress : Int
  currentStep : Option String
deriving DecidableEq, Repr

/-- Translation of `handleTaskProgress` (src/unnamed/part_004 lines
221-227): overwrites `progress` and `current_step` of the matching
task. -/
def handleTaskProgress (tasks : List FTask) (ev : ProgressEvent) : List FTask :=
  tasks.map (fun task =>
    if task.id = ev.taskId then
      { task with progress := ev.progress, currentStep := ev.currentStep }
    else task)

/-- Step statuses the engine treats as terminal (spec section 4.4: terminal
statuses are completed, failed, skipped, cancelled). -/
def terminalStatuses : List String := ["completed", "failed", "skipped", "cancelled"]

/-- Concrete frontend state taken from the mock data of
`src/unnamed/part_004`: task `'2'` is `running` with step 3 `running` and
steps 4-6 `pending`; task `'3'` is `failed` with step 1 `failed`.  Step
names are abbreviated; ids and statuses are as in the source. -/
def mockTasks : List FTask :=
  [ { id := "2", status := "running", progress := 65,
      errorMessage := none, currentStep := some "Implementando endpoints de autenticacion",
      steps :=
        [ { id := 1, name := "Configurar proyecto", status := "completed" },
          { id := 2, name := "Disenar modelos", status := "completed" },
          { id := 3, name := "Implementar autenticacion", status := "running" },
          { id := 4, name := "Crear endpoints CRUD", status := "pending" },
          { id := 5, name := "Documentar API", status := "pending" },
          { id := 6, name := "Testing", status := "pending" } ] },
    { id := "3", status := "failed", progress := 30,
      errorMessage := some "Error de conexion a la base de datos. Credenciales invalidas.",
      currentStep := none,
      steps :=
        [ { id := 1, name := "Conectar a BD", status := "failed" },
          { id := 2, name := "Analizar consultas", status := "pending" },
          { id := 3, name := "Optimizar indices", status := "pending" } ] } ]

end Frontend

/-! ## Seeded tool catalog and tool implementations (src/unnamed/part_010)

The SQL seed script inserts one row per tool into the `tools` table; each
row carries a `security_level` (constrained by the schema in
`src/unnamed/part_003` to safe/moderate/dangerous), a
`requires_confirmation` flag and the Python implementation as a string.
The Python functions are embedded below with their runtime effects
(subprocess execution, HTTP fetch, `json.loads`) abstracted as explicit
outcome parameters, so each `execute` body becomes a pure function of its
parameters and the outcome. -/

namespace Tools

/-- Security levels admitted by the `tools.security_level` CHECK constraint
(src/unnamed/part_003 line 97). -/
inductive SecurityLevel where
  | safe
  | moderate
  | dangerous
deriving DecidableEq, Repr

/-- One row of the seeded `tools` table (src/unnamed/part_010), keeping the
columns the claims are about. -/
structure SeedTool where
  name : String
  category : String
  securityLevel : SecurityLevel
  requiresConfirmation : Bool
deriving DecidableEq, Repr

/-- The eight tool rows inserted by src/unnamed/part_010 lines 23-445, in
insertion order, with their seeded `security_level` and
`requires_confirmation` values. -/
def seedTools : List SeedTool :=
  [ { name := "shell_exec", category := "system",
      securityLevel := .moderate, requiresConfirmation := true },
    { name := "file_read", category := "file",
      securityLevel := .safe, requiresConfirmation := false },
    { name := "file_write", category := "file",
      securityLevel := .safe, requiresConfirmation := false },
    { name := "file_list", category := "file",
      securityLevel := .safe, requiresConfirmation := false },
    { name := "web_search", category := "web",
      securityLevel := .safe, requiresConfirmation := false },
    { name := "browser_navigate", category := "web",
      securityLevel := .safe, requiresConfirmation := false },
    { name := "text_analyze", category := "analysis",
      securityLevel := .safe, requiresConfirmation := false },
    { name := "json_parse", category := "utility",
      securityLevel := .safe, requiresConfirmation := false } ]

/-- Lookup of a seeded tool row by its unique `name` column. -/
def findSeedTool (name : String) : Option SeedTool :=
  seedTools.find? (fun t => t.name == name)

/-- Default value of the `enable_tool_confirmation` system configuration
key inserted by src/unnamed/part_010 line 15. -/
def enableToolConfirmationDefault : Bool := false

/-! ### shell_exec (src/unnamed/part_010 lines 26-65) -/

/-- Parameters of `shell_exec` as the Python dict `params`: `command` is
required by the declared JSON schema, `working_dir` and `timeout` are
optional (`params.get` with defaults `"/tmp"` and `30`).  Each field is an
`Option` because the Python code receives an arbitrary dict; a missing
required key raises `KeyError` outside the `try` block. -/
structure ShellParams where
  command : Option String
  workingDir : Option String
  timeout : Option Nat
deriving DecidableEq, Repr

/-- Runtime outcome of the `subprocess.run(...)` call inside
`shell_exec`'s `try` block: normal completion with captured streams and
return code, `subprocess.TimeoutExpired`, or any other raised
exception (rendered by `str(e)`). -/
inductive SubprocessOutcome where
  | completed (stdout stderr : String) (returncode : Int)
  | timeoutExpired
  | raised (msg : String)
deriving DecidableEq, Repr

/-- Result dict returned by `shell_exec`'s `execute`; absent keys are
`none`. -/
structure ShellResult where
  success : Bool
  stdout : Option String
  stderr : Option String
  returnCode : Option Int
  error : Option String
deriving DecidableEq, Repr

/-- Message produced by the timeout branch of `shell_exec`
(the Python f-string at src/unnamed/part_010 line 58). -/
def timeoutMessage (timeout : Nat) : String :=
  "Command timed out after " ++ toString timeout ++ " seconds"

/-- Translation of `shell_exec`'s `execute` (src/unnamed/part_010 lines
34-64).  `params["command"]` is evaluated before the `try` block, so a
missing `command` key propagates a `KeyError` (the `Except.error` case);
with `command` present every subprocess outcome is converted into a
returned result dict. -/
def shellExec (params : ShellParams) (outcome : SubprocessOutcome) :
    Except String ShellResult :=
  match params.command with
  | none => .error "KeyError: command"
  | some _ =>
    let timeout := params.timeout.getD 30
    match outcome with
    | .completed out err rc =>
      .ok { success := true, stdout := some out, stderr := some err,
            returnCode := some rc, error := none }
    | .timeoutExpired =>
      .ok { success := false, stdout := none, stderr := none,
            returnCode := none, error := some (timeoutMessage timeout) }
    | .raised msg =>
      .ok { success := false, stdout := none, stderr := none,
            returnCode := none, error := some msg }

/-! ### json_parse (src/unnamed/part_010 lines 400-445) -/

/-- Python values as produced by `json.loads`, covering the cases the
`json_parse` code branches on (`dict`, `list`, everything else). -/
inductive PyValue where
  | null
  | pybool (b : Bool)
  | pynum (n : Int)
  | pystr (s : String)
  | pyarr (items : List PyValue)
  | pyobj (fields : List (String × PyValue))

/-- Python's `type(parsed_data).__name__` for the non-dict, non-list cases,
and the `"object"`/`"array"` labels the code assigns otherwise. -/
def pyTypeName : PyValue → String
  | .null => "NoneType"
  | .pybool _ => "bool"
  | .pynum _ => "int"
  | .pystr _ => "str"
  | .pyarr _ => "array"
  | .pyobj _ => "object"

/-- Serialisation standing for `json.dumps(parsed_data, indent=2,
ensure_ascii=False)`; the exact whitespace layout of the Python formatter
is not modelled, only that a string is produced from the parsed value. -/
def pyDumps : PyValue → String
  | .null => "null"
  | .pybool b => if b then "true" else "false"
  | .pynum n => toString n
  | .pystr s => "\"" ++ s ++ "\""
  | .pyarr items =>
    "[" ++ String.intercalate ", " (items.attach.map (fun x => pyDumps x.1)) ++ "]"
  | .pyobj fields =>
    "\x7b" ++
      String.intercalate ", "
        (fields.attach.map (fun x => "\"" ++ x.1.1 ++ "\": " ++ pyDumps x.1.2)) ++
      "\x7d"
decreasing_by
  · have h := List.sizeOf_lt_of_mem x.2
    simp only [PyValue.pyarr.sizeOf_spec]
    omega
  · have h := List.sizeOf_lt_of_mem x.2
    have h2 : sizeOf x.1.2 < sizeOf x.1 := by
      rcases x with ⟨⟨a, b⟩, hx⟩
      simp only [Prod.mk.sizeOf_spec]
      omega
    simp only [PyValue.pyobj.sizeOf_spec]
    omega

/-- Parameters of `json_parse`: `json_string` is required by the declared
schema (accessed before the `try` block), `pretty_print` optional with
default `True`. -/
structure JsonParams where
  jsonString : Option String
  prettyPrint : Option Bool
deriving DecidableEq, Repr

/-- Runtime outcome of `json.loads(json_string)`: a parsed value, a
`json.JSONDecodeError` (with its message), or any other exception. -/
inductive LoadsOutcome where
  | parsed (v : PyValue)
  | decodeError (msg : String)
  | raised (msg : String)

/-- Result dict returned by `json_parse`'s `execute`; absent keys are
`none`. -/
structure JsonResult where
  success : Bool
  validJson : Option Bool
  data : Option PyValue
  formatted : Option String
  typeName : Option String
  keys : Option (List String)
  keyCount : Option Nat
  arrayLength : Option Nat
  error : Option String

/-- Translation of `json_parse`'s `execute` (src/unnamed/part_010 lines
406-444).  `params["json_string"]` is evaluated before the `try` block
(missing key propagates `KeyError`); inside the `try`, a decode error
yields the `valid_json: False` dict with a prefixed message, any other
exception yields `str(e)`, and success fills the type-information keys
according to the parsed value's Python type. -/
def jsonParse (params : JsonParams) (outcome : LoadsOutcome) :
    Except String JsonResult :=
  match params.jsonString with
  | none => .error "KeyError: json_string"
  | some _ =>
    let pretty := params.prettyPrint.getD true
    match outcome with
    | .parsed v =>
      let base : JsonResult :=
        { success := true, validJson := some true, data := some v,
          formatted := if pretty then some (pyDumps v) else none,
          typeName := none, keys := none, keyCount := none,
          arrayLength := none, error := none }
      match v with
      | .pyobj fields =>
        .ok { base with
              typeName := some "object",
              keys := some (fields.map Prod.fst),
              keyCount := some fields.length }
      | .pyarr items =>
        .ok { base with
              typeName := some "array",
              arrayLength := some items.length }
      | other =>
        .ok { base with typeName := some (pyTypeName other) }
    | .decodeError msg =>
      .ok { success := false, validJson := some false, data := none,
            formatted := none, typeName := none, keys := none,
            keyCount := none, arrayLength := none,
            error := some ("JSON parsing error: " ++ msg) }
    | .raised msg =>
      .ok { success := false, validJson := none, data := none,
            formatted := none, typeName := none, keys := none,
            keyCount := none, arrayLength := none, error := some msg }

/-! ### browser_navigate (src/unnamed/part_010 lines 257-316) -/

/-- Parameters of `browser_navigate`: `url` required, `extract_text`
optional (default `True`), `extract_links` optional (default `False`). -/
structure NavParams where
  url : Option String
  extractText : Option Bool
  extractLinks : Option Bool
deriving DecidableEq, Repr

/-- Runtime outcome of the `requests.get` + BeautifulSoup processing: a
fetched page with its optional `<title>`, HTTP status code, the
whitespace-normalised visible text (a character sequence, as Python
slices strings by character) and the list of `(anchor text, absolute url)`
pairs; or any raised exception. -/
inductive FetchOutcome where
  | fetched (title : Option String) (statusCode : Nat)
      (text : List Char) (links : List (String × String))
  | raised (msg : String)
deriving DecidableEq, Repr

/-- Result dict returned by `browser_navigate`'s `execute`; absent keys
are `none`. -/
structure NavResult where
  success : Bool
  url : Option String
  title : Option String
  statusCode : Option Nat
  text : Option (List Char)
  links : Option (List (String × String))
  error : Option String
deriving DecidableEq, Repr

/-- Translation of `browser_navigate`'s `execute` (src/unnamed/part_010
lines 265-316).  On success the extracted text is truncated with
`text[:5000]` and the links with `links[:50]`; the `text`/`links` keys are
only present when the corresponding extract flag is set; `soup.title.string
if soup.title else ""` renders the missing title as the empty string. -/
def browserNavigate (params : NavParams) (outcome : FetchOutcome) :
    Except String NavResult :=
  match params.url with
  | none => .error "KeyError: url"
  | some url =>
    let doText := params.extractText.getD true
    let doLinks := params.extractLinks.getD false
    match outcome with
    | .fetched title code text links =>
      .ok { success := true, url := some url, title := some (title.getD ""),
            statusCode := some code,
            text := if doText then some (text.take 5000) else none,
            links := if doLinks then some (links.take 50) else none,
            error := none }
    | .raised msg =>
      .ok { success := false, url := none, title := none, statusCode := none,
            text := none, links := none, error := some msg }

/-- Number of characters of the `text` key of a `browser_navigate` result
(`0` when the key is absent). -/
def textLength (r : NavResult) : Nat :=
  match r.text with
  | some t => t.length
  | none => 0

/-- Number of entries of the `links` key of a `browser_navigate` result
(`0` when the key is absent). -/
def linksCount (r : NavResult) : Nat :=
  match r.links with
  | some ls => ls.length
  | none => 0


/-! ### file_read (src/unnamed/part_010 lines 74-106) -/

/-- Parameters of `file_read`: `path` is required by the declared schema
(accessed before the `try` block), `encoding` (default `"utf-8"`) and
`max_lines` are optional.  `encoding` only selects the codec of the
runtime `open` call, which the outcome abstracts. -/
structure FileReadParams where
  path : Option String
  encoding : Option String
  maxLines : Option Nat
deriving DecidableEq, Repr

/-- Runtime outcome of the filesystem interaction inside `file_read`:
the `os.path.exists` check fails, or the file opens with its lines (each
line keeping its newline, as Python iteration yields them) and its
`os.path.getsize`, or some call raises. -/
inductive FileReadOutcome where
  | missing
  | opened (lines : List String) (size : Nat)
  | raised (msg : String)
deriving DecidableEq, Repr

/-- Result dict returned by `file_read`; absent keys are `none`. -/
structure FileReadResult where
  success : Bool
  content : Option String
  fileSize : Option Nat
  error : Option String
deriving DecidableEq, Repr

/-- Translation of `file_read`'s `execute` (src/unnamed/part_010 lines
74-106).  `params["path"]` is read before the `try` block; a missing file
returns a failure dict; with `max_lines` truthy (present and non-zero)
only the first `max_lines` lines are joined, otherwise the whole file is
read; any exception is caught into a failure dict. -/
def fileRead (params : FileReadParams) (outcome : FileReadOutcome) :
    Except String FileReadResult :=
  match params.path with
  | none => .error "KeyError: path"
  | some path =>
    match outcome with
    | .missing =>
      .ok { success := false, content := none, fileSize := none,
            error := some ("File not found: " ++ path) }
    | .opened lines size =>
      let content :=
        match params.maxLines with
        | some n => if n ≠ 0 then String.join (lines.take n) else String.join lines
        | none => String.join lines
      .ok { success := true, content := some content, fileSize := some size,
            error := none }
    | .raised msg =>
      .ok { success := false, content := none, fileSize := none,
            error := some msg }

/-! ### file_write (src/unnamed/part_010 lines 115-138) -/

/-- Parameters of `file_write`: `path` and `content` are required (both
read before the `try` block, `path` first), `encoding` and `append` are
optional; they select the codec and the open mode of the runtime calls,
which the outcome abstracts. -/
structure FileWriteParams where
  path : Option String
  content : Option String
  encoding : Option String
  append : Option Bool
deriving DecidableEq, Repr

/-- Runtime outcome of `file_write`: the write succeeds — carrying
`len(content.encode(encoding))`, the byte length produced by the runtime
codec — or some call (makedirs, open, write, encode) raises. -/
inductive FileWriteOutcome where
  | written (bytesWritten : Nat)
  | raised (msg : String)
deriving DecidableEq, Repr

/-- Result dict returned by `file_write`; absent keys are `none`. -/
structure FileWriteResult where
  success : Bool
  bytesWritten : Option Nat
  filePath : Option String
  error : Option String
deriving DecidableEq, Repr

/-- Translation of `file_write`'s `execute` (src/unnamed/part_010 lines
115-138): both required keys are read before the `try` block (`path`
first); every outcome inside the `try` becomes a returned dict. -/
def fileWrite (params : FileWriteParams) (outcome : FileWriteOutcome) :
    Except String FileWriteResult :=
  match params.path with
  | none => .error "KeyError: path"
  | some path =>
    match params.content with
    | none => .error "KeyError: content"
    | some _ =>
      match outcome with
      | .written n =>
        .ok { success := true, bytesWritten := some n,
              filePath := some path, error := none }
      | .raised msg =>
        .ok { success := false, bytesWritten := none, filePath := none,
              error := some msg }

/-! ### file_list (src/unnamed/part_010 lines 147-198) -/

/-- Parameters of `file_list`: `path` required, `recursive` (default
false) and `show_hidden` (default false) optional. -/
structure FileListParams where
  path : Option String
  recursive : Option Bool
  showHidden : Option Bool
deriving DecidableEq, Repr

/-- One entry assembled by `file_list` from `os.stat`: name, full path,
size, directory flag and modification time (an abstract timestamp; the
source stores `st_mtime` unexamined). -/
structure DirEntry where
  name : String
  path : String
  size : Nat
  isDirectory : Bool
  modified : Nat
deriving DecidableEq, Repr

/-- Runtime outcome of the traversal inside `file_list`: the directory
does not exist, or the traversal (`os.walk` when `recursive`, else
`os.listdir` — with the per-entry `os.stat` fields) yields its entries,
or some call raises.  The hidden-name filter is applied by the embedding,
as it is genuine code logic. -/
inductive FileListOutcome where
  | missing
  | listed (entries : List DirEntry)
  | raised (msg : String)
deriving DecidableEq, Repr

/-- Result dict returned by `file_list`; absent keys are `none`. -/
structure FileListResult where
  success : Bool
  files : Option (List DirEntry)
  totalCount : Option Nat
  error : Option String
deriving DecidableEq, Repr

/-- Translation of `file_list`'s `execute` (src/unnamed/part_010 lines
147-198).  `params["path"]` is read before the `try` block; a missing
directory returns a failure dict; entries whose name starts with `"."`
are dropped unless `show_hidden`; `total_count` is the length of the
returned list. -/
def fileList (params : FileListParams) (outcome : FileListOutcome) :
    Except String FileListResult :=
  match params.path with
  | none => .error "KeyError: path"
  | some path =>
    let showHidden := params.showHidden.getD false
    match outcome with
    | .missing =>
      .ok { success := false, files := none, totalCount := none,
            error := some ("Directory not found: " ++ path) }
    | .listed entries =>
      let files := entries.filter (fun e => showHidden || !(e.name.startsWith "."))
      .ok { success := true, files := some files,
            totalCount := some files.length, error := none }
    | .raised msg =>
      .ok { success := false, files := none, totalCount := none,
            error := some msg }

/-! ### web_search (src/unnamed/part_010 lines 209-254) -/

/-- Parameters of `web_search`: `query` required, `max_results` (default
10) and `region` optional (`region` is only interpolated into the request
URL, which the outcome abstracts). -/
structure WebSearchParams where
  query : Option String
  maxResults : Option Nat
  region : Option String
deriving DecidableEq, Repr

/-- Runtime outcome of the DuckDuckGo request inside `web_search`: the
decoded JSON fields the code reads (`Abstract`, `AbstractText`,
`AbstractURL`, missing keys decoded as the falsy `""`), and
`RelatedTopics` where an item is `some (Text, FirstURL)` when it is a
dict containing `"Text"` and `none` otherwise; or a raised exception
(connection error, non-2xx status, JSON error). -/
inductive WebSearchOutcome where
  | response (abstract abstractText abstractUrl : String)
      (related : List (Option (String × String)))
  | raised (msg : String)
deriving DecidableEq, Repr

/-- One entry of the `results` list built by `web_search`. -/
structure SearchEntry where
  title : String
  url : String
  snippet : String
  entryType : String
deriving DecidableEq, Repr

/-- Title extraction of a related topic: the part before the first
`" - "` when the text contains one, else the whole text (`Text.split(" -
")[0] if " - " in Text else Text`; splitting a string that has no
occurrence returns the whole string, so both branches agree with the
head of `splitOn`). -/
def ddgTitle (t : String) : String :=
  if (t.splitOn " - ").length > 1 then (t.splitOn " - ").headD t else t

/-- Result dict returned by `web_search`; absent keys are `none`. -/
structure WebSearchResult where
  success : Bool
  results : Option (List SearchEntry)
  query : Option String
  totalResults : Option Nat
  error : Option String
deriving DecidableEq, Repr

/-- Translation of `web_search`'s `execute` (src/unnamed/part_010 lines
209-254).  `params["query"]` is read before the `try` block; an abstract
entry is prepended when `Abstract` is truthy (non-empty); the first
`max_results` related topics that are dicts with a `Text` key are
appended; `results` is truncated to `max_results` while `total_results`
counts the untruncated list. -/
def webSearch (params : WebSearchParams) (outcome : WebSearchOutcome) :
    Except String WebSearchResult :=
  match params.query with
  | none => .error "KeyError: query"
  | some query =>
    let maxResults := params.maxResults.getD 10
    match outcome with
    | .response abstract abstractText abstractUrl related =>
      let abstractEntries : List SearchEntry :=
        if abstract ≠ "" then
          [ { title := abstractText, url := abstractUrl,
              snippet := abstract, entryType := "abstract" } ]
        else []
      let relatedEntries : List SearchEntry :=
        (related.take maxResults).filterMap (fun item =>
          item.map (fun p =>
            { title := ddgTitle p.1, url := p.2,
              snippet := p.1, entryType := "related" }))
      let results := abstractEntries ++ relatedEntries
      .ok { success := true, results := some (results.take maxResults),
            query := some query, totalResults := some results.length,
            error := none }
    | .raised msg =>
      .ok { success := false, results := none, query := none,
            totalResults := none, error := some msg }

/-! ### text_analyze (src/unnamed/part_010 lines 319-396) -/

/-- Parameters of `text_analyze`: `text` required (read before the `try`
block), `analysis_type` optional with default `"summary"`. -/
structure TextAnalyzeParams where
  text : Option String
  analysisType : Option String
deriving DecidableEq, Repr

/-- Runtime outcome inside `text_analyze`: the word extraction
`re.findall(r"\b\w+\b", text.lower())` (a regex-engine call, abstracted
like `json.loads`; it feeds the `keywords` and `language` branches), or a
raised exception (the body ends in a catch-all `except`). -/
inductive TextAnalyzeOutcome where
  | computed (words : List String)
  | raised (msg : String)
deriving DecidableEq, Repr

/-- Result dict returned by `text_analyze`; absent keys are `none`.  The
Python float `avg_sentence_length` is modelled as a rational. -/
structure TextAnalyzeResult where
  success : Bool
  analysisType : Option String
  textLength : Option Nat
  wordCount : Option Nat
  sentenceCount : Option Nat
  avgSentenceLength : Option Rat
  firstSentences : Option (List String)
  topKeywords : Option (List (String × Nat))
  sentiment : Option String
  positiveIndicators : Option Nat
  negativeIndicators : Option Nat
  detectedLanguage : Option String
  spanishIndicators : Option Nat
  englishIndicators : Option Nat
  error : Option String
deriving DecidableEq, Repr

/-- Python `str.split()`: split on whitespace runs, dropping empty
pieces. -/
def pySplitWs (s : String) : List String :=
  (s.split Char.isWhitespace).filter (fun w => w ≠ "")

/-- Substring membership `needle in hay` of Python. -/
def containsSub (hay needle : String) : Bool :=
  hay.containsSubstr needle.toSubstring

/-- First occurrences of a list's elements in order (the key order of a
Python `Counter` built from the list). -/
def dedupFirstAux : List String → List String → List String
  | [], _ => []
  | w :: ws, seen =>
    if seen.contains w then dedupFirstAux ws seen
    else w :: dedupFirstAux ws (w :: seen)

/-- `Counter(words).most_common(n)`: pairs of distinct words with their
counts, sorted by count descending, ties kept in first-occurrence order
(CPython sorts the insertion-ordered items stably). -/
def mostCommon (words : List String) (n : Nat) : List (String × Nat) :=
  (((dedupFirstAux words []).map (fun w => (w, words.count w))).mergeSort
    (fun a b => b.2 ≤ a.2)).take n

/-- The `positive_words` list of the sentiment branch
(src/unnamed/part_010 line 353). -/
def positiveWords : List String :=
  [ "bueno", "excelente", "genial", "fantástico", "increíble", "perfecto",
    "maravilloso" ]

/-- The `negative_words` list of the sentiment branch
(src/unnamed/part_010 line 354). -/
def negativeWords : List String :=
  [ "malo", "terrible", "horrible", "pésimo", "awful", "disgusting" ]

/-- The `spanish_words` list of the language branch, verbatim with its
repetitions (src/unnamed/part_010 line 373). -/
def spanishWords : List String :=
  [
    "el", "la", "de", "que", "y", "en", "un", "es", "se", "no", "te", "lo",
    "le", "da", "su", "por", "son", "con", "para", "al", "una", "del",
    "todo", "está", "muy", "fue", "han", "era", "sobre", "ser", "tiene",
    "pero", "ya", "las", "él", "hasta", "puede", "va", "mi", "porque",
    "qué", "sólo", "sin", "vez", "tanto", "donde", "mucho", "hay",
    "también", "fue", "tiempo", "cada", "uno", "hace", "más", "como",
    "ahora", "entre", "cuando", "quiere", "desde", "aquí", "nos",
    "durante", "todos", "uno", "les", "ni", "contra", "otros", "ese",
    "eso", "ante", "ellos", "e", "esto", "mí", "antes", "algunos", "qué",
    "unos", "yo", "otro", "otras", "otra", "él", "tanto", "esa", "estos",
    "mucho", "quienes", "nada", "muchos", "cual", "poco", "ella", "estar",
    "estas", "algunas", "algo", "nosotros", "mi", "mis", "tú", "te", "ti",
    "tu", "tus", "ellas", "nosotras", "vosotros", "vosotras", "os", "mío",
    "mía", "míos", "mías", "tuyo", "tuya", "tuyos", "tuyas", "suyo",
    "suya", "suyos", "suyas", "nuestro", "nuestra", "nuestros", "nuestras",
    "vuestro", "vuestra", "vuestros", "vuestras", "esos", "esas" ]

/-- The `english_words` list of the language branch, verbatim
(src/unnamed/part_010 line 374). -/
def englishWords : List String :=
  [
    "the", "be", "to", "of", "and", "a", "in", "that", "have", "i", "it",
    "for", "not", "on", "with", "he", "as", "you", "do", "at", "this",
    "but", "his", "by", "from", "they", "she", "or", "an", "will", "my",
    "one", "all", "would", "there", "their", "what", "so", "up", "out",
    "if", "about", "who", "get", "which", "go", "me", "when", "make",
    "can", "like", "time", "no", "just", "him", "know", "take", "people",
    "into", "year", "your", "good", "some", "could", "them", "see",
    "other", "than", "then", "now", "look", "only", "come", "its", "over",
    "think", "also", "back", "after", "use", "two", "how", "our", "work",
    "first", "well", "way", "even", "new", "want", "because", "any",
    "these", "give", "day", "most", "us" ]

/-- The successful result of `text_analyze` for a given text, analysis
type and extracted word list: the base keys (`analysis_type`,
`text_length`, `word_count`) are always present, and the branch matching
`analysis_type` adds its keys (an unrecognised type falls through with
just the base keys, as the Python if/elif chain does).  Sentences are
`re.split(r"[.!?]+", text)` then stripped and filtered non-empty:
splitting at each of `.`, `!`, `?` and filtering out empties afterwards
yields the same list, since collapsing separator runs only removes empty
pieces. -/
def analyzeResult (text atype : String) (words : List String) :
    TextAnalyzeResult :=
  let base : TextAnalyzeResult :=
    { success := true, analysisType := some atype,
      textLength := some text.length,
      wordCount := some (pySplitWs text).length,
      sentenceCount := none, avgSentenceLength := none,
      firstSentences := none, topKeywords := none, sentiment := none,
      positiveIndicators := none, negativeIndicators := none,
      detectedLanguage := none, spanishIndicators := none,
      englishIndicators := none, error := none }
  if atype = "summary" then
    let sentences :=
      (((text.split (fun c => c == '.' || c == '!' || c == '?')).map
        String.trim).filter (fun s => s ≠ ""))
    { base with
      sentenceCount := some sentences.length,
      avgSentenceLength := some
        (if sentences.length = 0 then 0
         else ((sentences.map (fun s => ((pySplitWs s).length : Rat))).sum /
           (sentences.length : Rat))),
      firstSentences := some (sentences.take 3) }
  else if atype = "keywords" then
    let longWords := words.filter (fun w => w.length > 3)
    { base with topKeywords := some (mostCommon longWords 10) }
  else if atype = "sentiment" then
    let textLower := text.toLower
    let pos := (positiveWords.filter (fun w => containsSub textLower w)).length
    let neg := (negativeWords.filter (fun w => containsSub textLower w)).length
    { base with
      sentiment := some
        (if pos > neg then "positive"
         else if neg > pos then "negative" else "neutral"),
      positiveIndicators := some pos, negativeIndicators := some neg }
  else if atype = "language" then
    let sc := (words.filter (fun w => spanishWords.contains w)).length
    let ec := (words.filter (fun w => englishWords.contains w)).length
    { base with
      detectedLanguage := some
        (if sc > ec then "spanish"
         else if ec > sc then "english" else "unknown"),
      spanishIndicators := some sc, englishIndicators := some ec }
  else base

/-- Translation of `text_analyze`'s `execute` (src/unnamed/part_010 lines
326-396): `params["text"]` is read before the `try` block; inside it the
analysis result is assembled by `analyzeResult` and any exception is
caught into a failure dict. -/
def textAnalyze (params : TextAnalyzeParams) (outcome : TextAnalyzeOutcome) :
    Except String TextAnalyzeResult :=
  match params.text with
  | none => .error "KeyError: text"
  | some text =>
    let atype := params.analysisType.getD "summary"
    match outcome with
    | .computed words => .ok (analyzeResult text atype words)
    | .raised msg =>
      .ok { success := false, analysisType := none, textLength := none,
            wordCount := none, sentenceCount := none,
            avgSentenceLength := none, firstSentences := none,
            topKeywords := none, sentiment := none,
            positiveIndicators := none, negativeIndicators := none,
            detectedLanguage := none, spanishIndicators := none,
            englishIndicators := none, error := some msg }

end Tools

/-! ## Execution engine model

The Task Execution & Tool Orchestration Engine described by the
specification (Plan Compiler, Scheduler/Dispatcher, State Tracker) has no
implementation under the repository's sources: the sources contain only
its storage schema (`src/unnamed/part_003`), the seeded tool catalog
(`src/unnamed/part_010`) and the frontend mirror (`src/unnamed/part_004`).
Every definition in this namespace is therefore modelled from the
specification, as indicated by its doc comment. -/

namespace Engine

/-- Modelled from the spec: step statuses of section 3
(`pending, ready, running, completed, failed, skipped, cancelled`). -/
inductive StepStatus where
  | pending
  | ready
  | running
  | completed
  | failed
  | skipped
  | cancelled
deriving DecidableEq, Repr

/-- Modelled from the spec: task statuses of section 3
(`pending, running, completed, failed, cancelled`), matching the `tasks`
table CHECK constraint in src/unnamed/part_003 line 72. -/
inductive TaskStatus where
  | pending
  | running
  | completed
  | failed
  | cancelled
deriving DecidableEq, Repr

/-- Modelled from the spec: plan submission errors of section 6
(`PlanInvalidError`, `UnknownToolError`). -/
inductive PlanError where
  | unknownTool
  | planInvalid
deriving DecidableEq, Repr

/-- Modelled from the spec: the ToolDescriptor entity of section 3
(capability schema and resource limits are not needed by any claim and are
omitted). -/
structure ToolDescriptor where
  name : String
  securityLevel : Tools.SecurityLevel
  requiresConfirmation : Bool
deriving DecidableEq, Repr

/-- The tool registry induced by the seeded `tools` table of
src/unnamed/part_010: each seeded row viewed as a ToolDescriptor. -/
def seedRegistry : List ToolDescriptor :=
  Tools.seedTools.map (fun t =>
    { name := t.name, securityLevel := t.securityLevel,
      requiresConfirmation := t.requiresConfirmation })

/-- Modelled from the spec: one submitted step descriptor
`(tool_name, input_parameters, dependency_refs)` of section 4.1;
`dependency_refs` are indices into the submitted list, input parameters
are not needed by any claim. -/
structure StepDesc where
  toolName : String
  deps : List Nat
deriving DecidableEq, Repr

/-- Modelled from the spec: a compiled Step record of section 3.  Step ids
are the positions in the compiled list (the Plan Compiler assigns ids in
submission order), so no id field is stored. -/
structure StepRec where
  tool : ToolDescriptor
  deps : List Nat
  status : StepStatus
deriving DecidableEq, Repr

/-- Modelled from the spec: registry lookup `describe(tool_name)` of
section 6. -/
def findTool (registry : List ToolDescriptor) (name : String) :
    Option ToolDescriptor :=
  registry.find? (fun t => t.name == name)

/-- Dependency list of the step at index `v` of the submitted plan (empty
for an out-of-range index). -/
def depsAt (descs : List StepDesc) (v : Nat) : List Nat :=
  ((descs[v]?).map StepDesc.deps).getD []

/-- Modelled from the spec: the loop of Kahn's algorithm (section 4.1).
Each round removes from the remaining graph the nodes of in-degree zero
(every dependency already emitted into `order`); the loop stops when no
such node exists.  Nodes left over at that point are exactly the nodes
left unvisited after in-degree-zero queue exhaustion.  The first argument
bounds the number of rounds; every productive round emits at least one
node, so `kahnOrder` passes a bound that can never be exhausted first. -/
def kahnLoop (dep : Nat → List Nat) : Nat → List Nat → List Nat → List Nat
  | 0, _, order => order
  | fuel + 1, remaining, order =>
    if remaining.filter (fun v => (dep v).all (fun d => order.contains d)) = [] then
      order
    else
      kahnLoop dep fuel
        (remaining.filter (fun v => !((dep v).all (fun d => order.contains d))))
        (order ++ remaining.filter (fun v => (dep v).all (fun d => order.contains d)))

/-- Modelled from the spec: the topological order produced by Kahn's
algorithm on the submitted plan's dependency relation. -/
def kahnOrder (descs : List StepDesc) : List Nat :=
  kahnLoop (depsAt descs) (descs.length + 1) (List.range descs.length) []

/-- Resolution of every submitted tool name against the registry
(section 4.1: every `tool_name` must exist, else `UnknownToolError`). -/
def resolveTools (registry : List ToolDescriptor) (descs : List StepDesc) :
    Option (List (StepDesc × ToolDescriptor)) :=
  descs.mapM (fun d => (findTool registry d.toolName).map (fun td => (d, td)))

/-- Modelled from the spec: a compiled step starts `ready` when it has no
dependencies and `pending` otherwise (section 4.1). -/
def mkStep (p : StepDesc × ToolDescriptor) : StepRec :=
  { tool := p.2, deps := p.1.deps,
    status := if p.1.deps.isEmpty then .ready else .pending }

/-- Modelled from the spec: the Plan Compiler of section 4.1.  Tool names
are validated first (`UnknownToolError`); then the dependency relation is
checked with Kahn's algorithm: if some node is left unvisited the plan is
rejected with `PlanInvalidError` and no Step records are produced (the
error constructor carries no steps). -/
def compilePlan (registry : List ToolDescriptor) (descs : List StepDesc) :
    Except PlanError (List StepRec) :=
  match resolveTools registry descs with
  | none => .error .unknownTool
  | some resolved =>
    if (kahnOrder descs).length = descs.length then .ok (resolved.map mkStep)
    else .error .planInvalid

/-- Soundness of an emission order for a dependency map: every emitted
node's dependencies are emitted strictly earlier in the order. -/
def TopoSound (dep : Nat → List Nat) (order : List Nat) : Prop :=
  ∀ u ∈ order, ∀ d ∈ dep u, d ∈ order ∧ order.indexOf d < order.indexOf u

/-- Modelled from the spec: the dependency relation of a submitted plan;
`DependsOn descs u v` holds when step `u` lists step `v` among its
`dependency_refs`. -/
def DependsOn (descs : List StepDesc) (u v : Nat) : Prop :=
  ∃ d, descs[u]? = some d ∧ v ∈ d.deps

/-- A plan contains a cycle when some step transitively depends on
itself. -/
def HasCycle (descs : List StepDesc) : Prop :=
  ∃ v, Relation.TransGen (DependsOn descs) v v

/-! ### Scheduler state and transitions -/

/-- Modelled from the spec: the per-task state of the Scheduler and State
Tracker — the compiled steps (ids are positions), the task aggregate
status, the set of step ids approved via `approve_step`, and the stored
`progress_percent`. -/
structure SchedState where
  steps : List StepRec
  taskStatus : TaskStatus
  approved : List Nat
  progress : Nat
deriving DecidableEq, Repr

/-- Status update of the step at position `i` (the State Tracker's single
step-transition write). -/
def setStat : Nat → StepStatus → List StepRec → List StepRec
  | _, _, [] => []
  | 0, st, r :: rs => { r with status := st } :: rs
  | i + 1, st, r :: rs => r :: setStat i st rs

/-- Whether the step at position `d` currently has status `completed`. -/
def isCompletedAt (steps : List StepRec) (d : Nat) : Bool :=
  match steps[d]? with
  | some q => q.status == .completed
  | none => false

/-- Modelled from the spec: readiness of a step (section 4.4 item 1 /
section 3 invariant) — every id in `dependency_ids` has status
`completed`. -/
def depsDone (steps : List StepRec) (r : StepRec) : Bool :=
  r.deps.all (isCompletedAt steps)

/-- Number of `completed` steps. -/
def completedCount (steps : List StepRec) : Nat :=
  (steps.filter (fun r => r.status == .completed)).length

/-- Modelled from the spec: the State Tracker's recomputation
`progress_percent = completed_steps / total_steps * 100` (section 4.5),
in the integer arithmetic of the `progress_percentage INTEGER` column of
src/unnamed/part_003 line 76 (rounding down; `0` for an empty plan). -/
def recomputeProgress (steps : List StepRec) : Nat :=
  if steps.length = 0 then 0 else completedCount steps * 100 / steps.length

/-- Statuses from which a step can still make progress (section 4.4 item
4: the task is terminal when no steps remain `pending`/`ready`/
`running`). -/
def isActive (st : StepStatus) : Bool :=
  st == .pending || st == .ready || st == .running

/-- Modelled from the spec: the task aggregate status as a function of the
steps' statuses (section 3 invariant and section 4.4 item 4); an
explicitly cancelled task stays `cancelled`. -/
def recomputeTaskStatus (cur : TaskStatus) (steps : List StepRec) : TaskStatus :=
  if cur == .cancelled then .cancelled
  else if steps.any (fun r => isActive r.status) then cur
  else if steps.any (fun r => r.status == .failed) then .failed
  else .completed

/-- Modelled from the spec: the confirmation gate applies to a tool with
`security_level = dangerous` or `requires_confirmation = true`
(section 4.3). -/
def gatedTool (td : ToolDescriptor) : Bool :=
  td.requiresConfirmation || td.securityLevel == .dangerous

/-- Modelled from the spec: dispatch of a ready step (section 4.4 item 2):
the step becomes `running` and a pending task becomes `running`. -/
def startFn (s : SchedState) (i : Nat) : SchedState :=
  let st := setStat i .running s.steps
  { steps := st
    taskStatus := if s.taskStatus == .pending then .running else s.taskStatus
    approved := s.approved
    progress := recomputeProgress st }

/-- Modelled from the spec: successful completion of a running step
(section 4.4 item 3), followed by the State Tracker's recomputation of
progress and aggregate status. -/
def completeFn (s : SchedState) (i : Nat) : SchedState :=
  let st := setStat i .completed s.steps
  { steps := st
    taskStatus := recomputeTaskStatus s.taskStatus st
    approved := s.approved
    progress := recomputeProgress st }

/-- Modelled from the spec: a transient failure with retries left
re-enqueues the step as `ready` (section 4.4 item 3; the retry counter and
backoff delay are not needed by any claim). -/
def retryStepFn (s : SchedState) (i : Nat) : SchedState :=
  let st := setStat i .ready s.steps
  { steps := st
    taskStatus := s.taskStatus
    approved := s.approved
    progress := recomputeProgress st }

/-- One round of dependent discovery: adds every step position whose
dependency list meets the accumulated set. -/
def expandDependents (steps : List StepRec) (acc : List Nat) : List Nat :=
  acc ++ (List.range steps.length).filter (fun j =>
    !(acc.contains j) &&
      (match steps[j]? with
       | some r => r.deps.any (fun d => acc.contains d)
       | none => false))

/-- Iterated dependent discovery; `steps.length` rounds reach the
transitive closure. -/
def iterExpand (steps : List StepRec) : Nat → List Nat → List Nat
  | 0, acc => acc
  | n + 1, acc => iterExpand steps n (expandDependents steps acc)

/-- Application of the cascading skip to the steps whose position lies in
`dep` and whose status is still `pending`/`ready`; `j` is the position of
the list head. -/
def skipPositions (dep : List Nat) : Nat → List StepRec → List StepRec
  | _, [] => []
  | j, r :: rs =>
    (if dep.contains j && (r.status == .pending || r.status == .ready) then
      { r with status := .skipped }
     else r) :: skipPositions dep (j + 1) rs

/-- Modelled from the spec: permanent failure of a running step
(section 4.4 item 3): the step becomes `failed` and every step
transitively depending on it that is still `pending`/`ready` is
`skipped`; independent branches are unaffected. -/
def failFn (s : SchedState) (i : Nat) : SchedState :=
  let st1 := setStat i .failed s.steps
  let dep := iterExpand st1 st1.length [i]
  let st := skipPositions dep 0 st1
  { steps := st
    taskStatus := recomputeTaskStatus s.taskStatus st
    approved := s.approved
    progress := recomputeProgress st }

/-- Modelled from the spec: explicit cancellation (section 4.4 item 5):
every non-terminal (`pending`/`ready`/`running`) step becomes `cancelled`
and the task status becomes `cancelled`. -/
def cancelFn (s : SchedState) : SchedState :=
  let st := s.steps.map (fun r =>
    if isActive r.status then { r with status := .cancelled } else r)
  { steps := st
    taskStatus := .cancelled
    approved := s.approved
    progress := recomputeProgress st }

/-- Modelled from the spec: `approve_step(step_id)` (section 6) records
the external approval signal for a step. -/
def approveFn (s : SchedState) (i : Nat) : SchedState :=
  { s with approved := i :: s.approved }

/-- Modelled from the spec: `retry_task(task_id)` (section 6) re-enqueues
every `failed`/`skipped` step of a failed task as `ready` (the per-step
error strings cleared by the source of this operation are not modelled, as
no claim reads them) and resumes the task. -/
def retryTaskFn (s : SchedState) : SchedState :=
  let st := s.steps.map (fun r =>
    if r.status == .failed || r.status == .skipped then
      { r with status := .ready }
    else r)
  { steps := st
    taskStatus := .running
    approved := s.approved
    progress := recomputeProgress st }

/-- Modelled from the spec: the transition relation of the
Scheduler/State Tracker (sections 4.4 and 6).  `start` dispatches a
`pending`/`ready` step whose dependencies are all `completed`, on a task
that is neither `cancelled` nor `failed` (section 3 invariant), and only
with a recorded approval when the tool is confirmation-gated
(section 4.3); the remaining constructors are completion, transient-retry
re-enqueue, permanent failure with cascade, task cancellation, approval
recording and `retry_task`. -/
inductive SchedStep : SchedState → SchedState → Prop where
  | start (s : SchedState) (i : Nat) (r : StepRec)
      (hfind : s.steps[i]? = some r)
      (hstatus : r.status = .pending ∨ r.status = .ready)
      (hdeps : depsDone s.steps r = true)
      (hgate : gatedTool r.tool = true → i ∈ s.approved)
      (htask1 : s.taskStatus ≠ .cancelled)
      (htask2 : s.taskStatus ≠ .failed) :
      SchedStep s (startFn s i)
  | complete (s : SchedState) (i : Nat) (r : StepRec)
      (hfind : s.steps[i]? = some r)
      (hrun : r.status = .running) :
      SchedStep s (completeFn s i)
  | retryStep (s : SchedState) (i : Nat) (r : StepRec)
      (hfind : s.steps[i]? = some r)
      (hrun : r.status = .running) :
      SchedStep s (retryStepFn s i)
  | fail (s : SchedState) (i : Nat) (r : StepRec)
      (hfind : s.steps[i]? = some r)
      (hrun : r.status = .running) :
      SchedStep s (failFn s i)
  | cancel (s : SchedState) :
      SchedStep s (cancelFn s)
  | approve (s : SchedState) (i : Nat) :
      SchedStep s (approveFn s i)
  | retryAll (s : SchedState)
      (hfail : s.taskStatus = .failed) :
      SchedStep s (retryTaskFn s)

/-- Modelled from the spec: the task state created on acceptance of a
compiled plan (section 4.1 / section 6): compiled steps, task `pending`,
no approvals, progress recomputed (zero). -/
def initState (steps : List StepRec) : SchedState :=
  { steps := steps
    taskStatus := .pending
    approved := []
    progress := recomputeProgress steps }

/-- A state is initial when it is the accepted outcome of plan compilation
for some registry and submitted plan. -/
def InitState (s : SchedState) : Prop :=
  ∃ registry descs steps,
    compilePlan registry descs = .ok steps ∧ s = initState steps

/-- States reachable from some accepted plan through the scheduler's
transition relation. -/
def Reachable (s : SchedState) : Prop :=
  ∃ s₀, InitState s₀ ∧ Relation.ReflTransGen SchedStep s₀ s

/-- The inductive invariant of the scheduler state: a running step has all
its dependencies `completed` (section 3 invariant), a running
confirmation-gated step has a recorded approval (section 4.3), a
cancelled task has no running step (section 3 invariant: once `cancelled`
no step transitions to `running`), and the stored `progress_percent` is
the State Tracker's recomputed value (section 4.5). -/
structure Inv (s : SchedState) : Prop where
  depsInv : ∀ (i : Nat) (r : StepRec), s.steps[i]? = some r →
    r.status = .running → depsDone s.steps r = true
  gateInv : ∀ (i : Nat) (r : StepRec), s.steps[i]? = some r →
    r.status = .running → gatedTool r.tool = true → i ∈ s.approved
  cancelInv : s.taskStatus = .cancelled →
    ∀ (i : Nat) (r : StepRec), s.steps[i]? = some r → r.status ≠ .running
  progressInv : s.progress = recomputeProgress s.steps

/-! ### Concrete plans and traces

Small concrete instances over the seeded registry, used to exhibit the
engine definitions at work on explicit inputs. -/

/-- The `file_read` descriptor as seeded by src/unnamed/part_010 (safe, no
confirmation). -/
def fileReadTool : ToolDescriptor :=
  { name := "file_read", securityLevel := .safe, requiresConfirmation := false }

/-- The `shell_exec` descriptor as seeded by src/unnamed/part_010
(moderate, requires confirmation). -/
def shellTool : ToolDescriptor :=
  { name := "shell_exec", securityLevel := .moderate, requiresConfirmation := true }

/-- A two-step plan: step 1 depends on step 0. -/
def chainDescs : List StepDesc :=
  [ { toolName := "file_read", deps := [] },
    { toolName := "file_read", deps := [0] } ]

/-- The compiled steps of `chainDescs`. -/
def chainSteps : List StepRec :=
  [ { tool := fileReadTool, deps := [], status := .ready },
    { tool := fileReadTool, deps := [0], status := .pending } ]

/-- Initial state of the two-step plan. -/
def chainS0 : SchedState := initState chainSteps

/-- After dispatching step 0. -/
def chainS1 : SchedState := startFn chainS0 0

/-- After step 0 completes. -/
def chainS2 : SchedState := completeFn chainS1 0

/-- After dispatching step 1 (its dependency 0 is `completed`). -/
def chainS3 : SchedState := startFn chainS2 1

/-- Cancellation issued while step 0 of the two-step plan is running. -/
def cancelledS : SchedState := cancelFn chainS1

/-- A one-step plan invoking the confirmation-gated `shell_exec`. -/
def gateDescs : List StepDesc := [ { toolName := "shell_exec", deps := [] } ]

/-- The compiled step of `gateDescs`. -/
def gateSteps : List StepRec :=
  [ { tool := shellTool, deps := [], status := .ready } ]

/-- Initial state of the gated plan. -/
def gateS0 : SchedState := initState gateSteps

/-- After `approve_step 0` is recorded. -/
def gateS1 : SchedState := approveFn gateS0 0

/-- After dispatching the approved gated step. -/
def gateS2 : SchedState := startFn gateS1 0

/-- The two-step cyclic plan of the specification's cycle-rejection
property: step 0 depends on step 1 and step 1 depends on step 0. -/
def cycleDescs : List StepDesc :=
  [ { toolName := "file_read", deps := [1] },
    { toolName := "file_read", deps := [0] } ]

end Engine

/-! ## Theorems

First the frontend control surface (claims about `cancelTask`,
`retryTask` and the socket event handlers), then the seeded tool
implementations, then the invariants of the modelled engine, and finally
the Plan Compiler's cycle rejection. -/

namespace Engine

/-- Entry `j` of a `setStat i` update: entry `i` gets the new status,
every other entry is unchanged. -/
theorem getElem?_setStat (i j : Nat) (st : StepStatus) (l : List StepRec) :
    (setStat i st l)[j]? =
      if j = i then (l[j]?).map (fun r => { r with status := st })
      else l[j]? := by
  induction l generalizing i j with
  | nil => simp [setStat]
  | cons r rs ih =>
    cases i with
    | zero =>
      cases j with
      | zero => simp [setStat]
      | succ k => simp [setStat]
    | succ m =>
      cases j with
      | zero => simp [setStat]
      | succ k =>
        simp only [setStat, List.getElem?_cons_succ]
        rw [ih]
        by_cases h : k = m
        · subst h; simp
        · rw [if_neg h, if_neg (by omega)]

/-- Entry `k` of the cascading-skip map over a list whose head sits at
position `j`. -/
theorem getElem?_skipPositions (dep : List Nat) (j k : Nat) (l : List StepRec) :
    (skipPositions dep j l)[k]? = (l[k]?).map (fun r =>
      if dep.contains (j + k) && (r.status == .pending || r.status == .ready) then
        { r with status := .skipped }
      else r) := by
  induction l generalizing j k with
  | nil => simp [skipPositions]
  | cons r rs ih =>
    cases k with
    | zero => simp [skipPositions]
    | succ k =>
      simp only [skipPositions, List.getElem?_cons_succ]
      rw [ih]
      have harith : j + 1 + k = j + (k + 1) := by omega
      rw [harith]

/-- Monotonicity of per-position completion: if every completed entry of
`l` stays completed in `l'`, then `isCompletedAt` transfers. -/
theorem isCompletedAt_of_pointwise (l l' : List StepRec)
    (h : ∀ (d : Nat) (q : StepRec), l[d]? = some q → q.status = .completed →
      ∃ q' : StepRec, l'[d]? = some q' ∧ q'.status = .completed) :
    ∀ d, isCompletedAt l d = true → isCompletedAt l' d = true := by
  intro d hd
  unfold isCompletedAt at hd ⊢
  cases hq : l[d]? with
  | none => rw [hq] at hd; exact absurd hd (by simp)
  | some q =>
    rw [hq] at hd
    have hqc : q.status = .completed := by simpa using hd
    obtain ⟨q', hq', hc'⟩ := h d q hq hqc
    rw [hq']
    simp [hc']

/-- Monotonicity of `depsDone` under per-position completion transfer. -/
theorem depsDone_mono (l l' : List StepRec) (r r' : StepRec)
    (hdeps : r'.deps = r.deps)
    (h : ∀ d, isCompletedAt l d = true → isCompletedAt l' d = true)
    (hd : depsDone l r = true) : depsDone l' r' = true := by
  unfold depsDone at hd ⊢
  rw [hdeps]
  rw [List.all_eq_true] at hd ⊢
  intro d hdm
  exact h d (hd d hdm)

/-- The aggregate-status recomputation never invents a cancellation: it
returns `cancelled` only when the task was already `cancelled`. -/
theorem recomputeTaskStatus_eq_cancelled (cur : TaskStatus) (st : List StepRec)
    (h : recomputeTaskStatus cur st = .cancelled) : cur = .cancelled := by
  unfold recomputeTaskStatus at h
  split_ifs at h with h1 h2 h3
  · simpa using h1
  · exact h

/-- Preservation of the scheduler invariant by every transition. -/
theorem step_inv {s s' : SchedState} (hs : Inv s) (hstep : SchedStep s s') :
    Inv s' := by
  cases hstep with
  | start i r hfind hstatus hdeps hgate htask1 htask2 =>
    have hcomp : ∀ d, isCompletedAt s.steps d = true →
        isCompletedAt (startFn s i).steps d = true := by
      apply isCompletedAt_of_pointwise
      intro d q hq hqc
      by_cases hdi : d = i
      · subst hdi
        rw [hq] at hfind
        injection hfind with hqr
        rcases hstatus with h | h <;> rw [← hqr, hqc] at h <;>
          exact absurd h (by simp)
      · refine ⟨q, ?_, hqc⟩
        show (setStat i StepStatus.running s.steps)[d]? = some q
        rw [getElem?_setStat, if_neg hdi, hq]
    constructor
    · intro j r' hj hrun'
      have hj' : (setStat i StepStatus.running s.steps)[j]? = some r' := hj
      rw [getElem?_setStat] at hj'
      by_cases hji : j = i
      · rw [if_pos hji, hji, hfind] at hj'
        cases hj'
        exact depsDone_mono s.steps _ r _ rfl hcomp hdeps
      · rw [if_neg hji] at hj'
        exact depsDone_mono s.steps _ r' r' rfl hcomp (hs.depsInv j r' hj' hrun')
    · intro j r' hj hrun' hgate'
      have hj' : (setStat i StepStatus.running s.steps)[j]? = some r' := hj
      rw [getElem?_setStat] at hj'
      by_cases hji : j = i
      · rw [if_pos hji, hji, hfind] at hj'
        cases hj'
        rw [hji]
        exact hgate hgate'
      · rw [if_neg hji] at hj'
        exact hs.gateInv j r' hj' hrun' hgate'
    · intro hc
      exfalso
      have hc' : (if s.taskStatus == TaskStatus.pending then TaskStatus.running
          else s.taskStatus) = TaskStatus.cancelled := hc
      split_ifs at hc' with hp
      exact htask1 hc'
    · rfl
  | complete i r hfind hrun =>
    have hcomp : ∀ d, isCompletedAt s.steps d = true →
        isCompletedAt (completeFn s i).steps d = true := by
      apply isCompletedAt_of_pointwise
      intro d q hq hqc
      by_cases hdi : d = i
      · refine ⟨{ q with status := StepStatus.completed }, ?_, rfl⟩
        show (setStat i StepStatus.completed s.steps)[d]? = _
        rw [getElem?_setStat, if_pos hdi, hq]
        rfl
      · refine ⟨q, ?_, hqc⟩
        show (setStat i StepStatus.completed s.steps)[d]? = some q
        rw [getElem?_setStat, if_neg hdi, hq]
    constructor
    · intro j r' hj hrun'
      have hj' : (setStat i StepStatus.completed s.steps)[j]? = some r' := hj
      rw [getElem?_setStat] at hj'
      by_cases hji : j = i
      · rw [if_pos hji, hji, hfind] at hj'
        cases hj'
        exact absurd hrun' (by simp)
      · rw [if_neg hji] at hj'
        exact depsDone_mono s.steps _ r' r' rfl hcomp (hs.depsInv j r' hj' hrun')
    · intro j r' hj hrun' hgate'
      have hj' : (setStat i StepStatus.completed s.steps)[j]? = some r' := hj
      rw [getElem?_setStat] at hj'
      by_cases hji : j = i
      · rw [if_pos hji, hji, hfind] at hj'
        cases hj'
        exact absurd hrun' (by simp)
      · rw [if_neg hji] at hj'
        exact hs.gateInv j r' hj' hrun' hgate'
    · intro hc
      exfalso
      have hcur := recomputeTaskStatus_eq_cancelled _ _ hc
      exact hs.cancelInv hcur i r hfind hrun
    · rfl
  | retryStep i r hfind hrun =>
    have hcomp : ∀ d, isCompletedAt s.steps d = true →
        isCompletedAt (retryStepFn s i).steps d = true := by
      apply isCompletedAt_of_pointwise
      intro d q hq hqc
      by_cases hdi : d = i
      · subst hdi
        rw [hq] at hfind
        injection hfind with hqr
        rw [← hqr, hqc] at hrun
        exact absurd hrun (by simp)
      · refine ⟨q, ?_, hqc⟩
        show (setStat i StepStatus.ready s.steps)[d]? = some q
        rw [getElem?_setStat, if_neg hdi, hq]
    constructor
    · intro j r' hj hrun'
      have hj' : (setStat i StepStatus.ready s.steps)[j]? = some r' := hj
      rw [getElem?_setStat] at hj'
      by_cases hji : j = i
      · rw [if_pos hji, hji, hfind] at hj'
        cases hj'
        exact absurd hrun' (by simp)
      · rw [if_neg hji] at hj'
        exact depsDone_mono s.steps _ r' r' rfl hcomp (hs.depsInv j r' hj' hrun')
    · intro j r' hj hrun' hgate'
      have hj' : (setStat i StepStatus.ready s.steps)[j]? = some r' := hj
      rw [getElem?_setStat] at hj'
      by_cases hji : j = i
      · rw [if_pos hji, hji, hfind] at hj'
        cases hj'
        exact absurd hrun' (by simp)
      · rw [if_neg hji] at hj'
        exact hs.gateInv j r' hj' hrun' hgate'
    · intro hc
      exfalso
      exact hs.cancelInv hc i r hfind hrun
    · rfl
  | fail i r hfind hrun =>
    have hget : ∀ j, (failFn s i).steps[j]? =
        ((setStat i StepStatus.failed s.steps)[j]?).map (fun q =>
          if (iterExpand (setStat i StepStatus.failed s.steps)
                (setStat i StepStatus.failed s.steps).length [i]).contains j &&
              (q.status == .pending || q.status == .ready) then
            { q with status := .skipped }
          else q) := by
      intro j
      show (skipPositions _ 0 _)[j]? = _
      rw [getElem?_skipPositions]
      simp [Nat.zero_add]
    have hcomp : ∀ d, isCompletedAt s.steps d = true →
        isCompletedAt (failFn s i).steps d = true := by
      apply isCompletedAt_of_pointwise
      intro d q hq hqc
      by_cases hdi : d = i
      · subst hdi
        rw [hq] at hfind
        injection hfind with hqr
        rw [← hqr, hqc] at hrun
        exact absurd hrun (by simp)
      · refine ⟨q, ?_, hqc⟩
        rw [hget d, getElem?_setStat, if_neg hdi, hq]
        simp [hqc]
    constructor
    · intro j r' hj hrun'
      rw [hget j, getElem?_setStat] at hj
      by_cases hji : j = i
      · rw [if_pos hji, hji, hfind] at hj
        simp only [Option.map_some'] at hj
        cases hj
        exact absurd hrun' (by simp)
      · rw [if_neg hji] at hj
        cases hq : s.steps[j]? with
        | none => rw [hq] at hj; exact absurd hj (by simp)
        | some q =>
          rw [hq] at hj
          simp only [Option.map_some'] at hj
          split at hj
          · injection hj with hje
            subst hje
            exact absurd hrun' (by simp)
          · injection hj with hje
            subst hje
            exact depsDone_mono s.steps _ q q rfl hcomp (hs.depsInv j q hq hrun')
    · intro j r' hj hrun' hgate'
      rw [hget j, getElem?_setStat] at hj
      by_cases hji : j = i
      · rw [if_pos hji, hji, hfind] at hj
        simp only [Option.map_some'] at hj
        cases hj
        exact absurd hrun' (by simp)
      · rw [if_neg hji] at hj
        cases hq : s.steps[j]? with
        | none => rw [hq] at hj; exact absurd hj (by simp)
        | some q =>
          rw [hq] at hj
          simp only [Option.map_some'] at hj
          split at hj
          · injection hj with hje
            subst hje
            exact absurd hrun' (by simp)
          · injection hj with hje
            subst hje
            exact hs.gateInv j q hq hrun' hgate'
    · intro hc
      exfalso
      have hcur := recomputeTaskStatus_eq_cancelled _ _ hc
      exact hs.cancelInv hcur i r hfind hrun
    · rfl
  | cancel =>
    have hnorun : ∀ (j : Nat) (r' : StepRec), (cancelFn s).steps[j]? = some r' →
        r'.status ≠ .running := by
      intro j r' hj hrun'
      have hj' : (s.steps.map (fun q =>
          if isActive q.status then { q with status := StepStatus.cancelled }
          else q))[j]? = some r' := hj
      rw [List.getElem?_map] at hj'
      cases hq : s.steps[j]? with
      | none => rw [hq] at hj'; exact absurd hj' (by simp)
      | some q =>
        rw [hq] at hj'
        simp only [Option.map_some'] at hj'
        split at hj'
        · injection hj' with hje
          subst hje
          exact absurd hrun' (by simp)
        · next hact =>
          injection hj' with hje
          subst hje
          apply hact
          rw [hrun']
          rfl
    constructor
    · intro j r' hj hrun'
      exact absurd hrun' (hnorun j r' hj)
    · intro j r' hj hrun'
      exact absurd hrun' (hnorun j r' hj)
    · intro _ j r' hj
      exact hnorun j r' hj
    · rfl
  | approve i =>
    constructor
    · intro j r' hj hrun'
      exact hs.depsInv j r' hj hrun'
    · intro j r' hj hrun' hgate'
      exact List.mem_cons_of_mem i (hs.gateInv j r' hj hrun' hgate')
    · intro hc j r' hj
      exact hs.cancelInv hc j r' hj
    · exact hs.progressInv
  | retryAll hfail =>
    have hcomp : ∀ d, isCompletedAt s.steps d = true →
        isCompletedAt (retryTaskFn s).steps d = true := by
      apply isCompletedAt_of_pointwise
      intro d q hq hqc
      refine ⟨q, ?_, hqc⟩
      show (s.steps.map (fun x =>
          if x.status == StepStatus.failed || x.status == StepStatus.skipped then
            { x with status := StepStatus.ready }
          else x))[d]? = some q
      rw [List.getElem?_map, hq]
      simp [hqc]
    constructor
    · intro j r' hj hrun'
      have hj' : (s.steps.map (fun x =>
          if x.status == StepStatus.failed || x.status == StepStatus.skipped then
            { x with status := StepStatus.ready }
          else x))[j]? = some r' := hj
      rw [List.getElem?_map] at hj'
      cases hq : s.steps[j]? with
      | none => rw [hq] at hj'; exact absurd hj' (by simp)
      | some q =>
        rw [hq] at hj'
        simp only [Option.map_some'] at hj'
        split at hj'
        · injection hj' with hje
          subst hje
          exact absurd hrun' (by simp)
        · injection hj' with hje
          subst hje
          exact depsDone_mono s.steps _ q q rfl hcomp (hs.depsInv j q hq hrun')
    · intro j r' hj hrun' hgate'
      have hj' : (s.steps.map (fun x =>
          if x.status == StepStatus.failed || x.status == StepStatus.skipped then
            { x with status := StepStatus.ready }
          else x))[j]? = some r' := hj
      rw [List.getElem?_map] at hj'
      cases hq : s.steps[j]? with
      | none => rw [hq] at hj'; exact absurd hj' (by simp)
      | some q =>
        rw [hq] at hj'
        simp only [Option.map_some'] at hj'
        split at hj'
        · injection hj' with hje
          subst hje
          exact absurd hrun' (by simp)
        · injection hj' with hje
          subst hje
          exact hs.gateInv j q hq hrun' hgate'
    · intro hc
      exact absurd hc (by simp [retryTaskFn])
    · rfl

/-- Every accepted plan's initial state satisfies the invariant: compiled
steps are `ready` or `pending`, the task is `pending`, nothing is
approved and the progress is the recomputed value. -/
theorem init_inv (s : SchedState) (h : InitState s) : Inv s := by
  obtain ⟨registry, descs, steps, hcomp, rfl⟩ := h
  have hstatus : ∀ (i : Nat) (r : StepRec), steps[i]? = some r →
      r.status = .ready ∨ r.status = .pending := by
    intro i r hi
    unfold compilePlan at hcomp
    cases hres : resolveTools registry descs with
    | none => rw [hres] at hcomp; exact absurd hcomp (by simp)
    | some resolved =>
      rw [hres] at hcomp
      split_ifs at hcomp with hlen
      · have hsteps : resolved.map mkStep = steps := by
          simpa using hcomp
        rw [← hsteps, List.getElem?_map] at hi
        cases hp : resolved[i]? with
        | none => rw [hp] at hi; exact absurd hi (by simp)
        | some p =>
          rw [hp] at hi
          simp only [Option.map_some'] at hi
          cases hi
          unfold mkStep
          by_cases hd : p.1.deps.isEmpty <;> simp [hd]
  constructor
  · intro i r hi hrun
    rcases hstatus i r hi with h | h <;> rw [h] at hrun <;> exact absurd hrun (by simp)
  · intro i r hi hrun
    rcases hstatus i r hi with h | h <;> rw [h] at hrun <;> exact absurd hrun (by simp)
  · intro hc
    exact absurd hc (by simp [initState])
  · rfl

/-- Every reachable scheduler state satisfies the invariant. -/
theorem reachable_inv (s : SchedState) (h : Reachable s) : Inv s := by
  obtain ⟨s₀, hinit, hsteps⟩ := h
  induction hsteps with
  | refl => exact init_inv s₀ hinit
  | tail _hab hbc ih => exact step_inv ih hbc

end Engine

/-- Mapping an idempotent function twice over a list is the same as
mapping it once. -/
theorem list_map_idem {α : Type} (f : α → α) (hf : ∀ a, f (f a) = f a)
    (l : List α) : (l.map f).map f = l.map f := by
  induction l with
  | nil => rfl
  | cons a l ih => simp [hf a, ih]

/-- Merging the same patch twice is the same as merging it once: every
field of the patch either overwrites (and then overwrites with the same
value again) or is absent (and then is absent again). -/
theorem mergeTask_merge_same (t : Frontend.FTask) (p : Frontend.TaskPatch) :
    Frontend.mergeTask (Frontend.mergeTask t p) p = Frontend.mergeTask t p := by
  rcases p with ⟨pid, ps, pp, pe, pc, pst⟩
  rcases ps <;> rcases pp <;> rcases pe <;> rcases pc <;> rcases pst <;>
    simp [Frontend.mergeTask]

/-- C8: applying the same `task_updated` or `task_progress` event twice
leaves the frontend task state exactly as after the first application:
both `handleTaskUpdate` and `handleTaskProgress` are idempotent, so in
particular `task.progress` and every step's status are unchanged by the
second delivery. -/
theorem event_application_idempotent :
    ∀ (tasks : List Frontend.FTask) (patch : Frontend.TaskPatch)
      (ev : Frontend.ProgressEvent),
      Frontend.handleTaskUpdate (Frontend.handleTaskUpdate tasks patch) patch =
        Frontend.handleTaskUpdate tasks patch ∧
      Frontend.handleTaskProgress (Frontend.handleTaskProgress tasks ev) ev =
        Frontend.handleTaskProgress tasks ev := by
  intro tasks patch ev
  constructor
  · apply list_map_idem
    intro t
    by_cases h : t.id = patch.id
    · have hid : (Frontend.mergeTask t patch).id = patch.id := rfl
      simp [h, hid, mergeTask_merge_same]
    · simp [h]
  · apply list_map_idem
    intro t
    by_cases h : t.id = ev.taskId
    · simp [h]
    · simp [h]

/-- C4 counterexample: on the concrete frontend state taken from the
source's own mock data, cancelling task `"2"` (which has a `running` step
and three `pending` steps) sets the task's status to `"cancelled"` but
leaves every step status untouched: step 3 is still `"running"`, which is
neither terminal nor `"cancelled"`, refuting the claim that every
non-terminal step of a cancelled task is `cancelled`. -/
theorem cancel_task_counterexample :
    ((Frontend.cancelTask Frontend.mockTasks "2")[0]?).map Frontend.FTask.status =
        some "cancelled" ∧
      ((Frontend.cancelTask Frontend.mockTasks "2")[0]?).map
          (fun t => t.steps.map Frontend.FStep.status) =
        some ["completed", "completed", "running", "pending", "pending", "pending"] ∧
      "running" ∉ Frontend.terminalStatuses ∧ "running" ≠ "cancelled" := by
  refine ⟨rfl, rfl, ?_, ?_⟩ <;> decide

/-- C4 (amended): `cancelTask` sets the matching task's status to
`"cancelled"` and leaves its `steps` array (and every other task)
unchanged; and in the modelled engine, once a task's status is
`cancelled` no step of it is ever `running` again — in particular no step
transitions to `running` after cancellation. -/
theorem cancel_task_behaviour :
    (∀ (tasks : List Frontend.FTask) (tid : String) (j : Nat) (t : Frontend.FTask),
        tasks[j]? = some t →
          ∃ t', (Frontend.cancelTask tasks tid)[j]? = some t' ∧
            t'.steps = t.steps ∧
            (t.id = tid → t'.status = "cancelled") ∧
            (t.id ≠ tid → t' = t)) ∧
      ∀ s, Engine.Reachable s → s.taskStatus = Engine.TaskStatus.cancelled →
        ∀ (i : Nat) (r : Engine.StepRec), s.steps[i]? = some r →
          r.status ≠ Engine.StepStatus.running := by
  constructor
  · intro tasks tid j t hj
    refine ⟨if t.id = tid then { t with status := "cancelled" } else t, ?_, ?_, ?_, ?_⟩
    · simp [Frontend.cancelTask, List.getElem?_map, hj]
    · by_cases h : t.id = tid <;> simp [h]
    · intro h; simp [h]
    · intro h; simp [h]
  · intro s hs hcanc i r hfind
    exact (Engine.reachable_inv s hs).cancelInv hcanc i r hfind

/-- C5 counterexample: on the concrete frontend state taken from the
source's own mock data, retrying the failed task `"3"` sets the task's
status to `"pending"` but leaves every step untouched: the `failed` step
keeps status `"failed"` instead of being re-enqueued as `"ready"`,
refuting the claim that `retry_task` re-enqueues `failed`/`skipped`
steps. -/
theorem retry_task_counterexample :
    ((Frontend.retryTask Frontend.mockTasks "3")[1]?).map Frontend.FTask.status =
        some "pending" ∧
      ((Frontend.retryTask Frontend.mockTasks "3")[1]?).map
          (fun t => t.steps.map Frontend.FStep.status) =
        some ["failed", "pending", "pending"] ∧
      "failed" ≠ "ready" := by
  refine ⟨rfl, rfl, ?_⟩; decide

/-- C5 (amended): on a task in status `"failed"`, `retryTask` resets the
task record itself — status `"pending"`, progress `0`, `error_message`
cleared — and leaves every step record, and every other task,
unchanged. -/
theorem retry_task_behaviour :
    ∀ (tasks : List Frontend.FTask) (tid : String) (j : Nat) (t : Frontend.FTask),
      tasks[j]? = some t → t.status = "failed" →
        ∃ t', (Frontend.retryTask tasks tid)[j]? = some t' ∧
          t'.steps = t.steps ∧
          (t.id = tid →
            t'.status = "pending" ∧ t'.progress = 0 ∧ t'.errorMessage = none) ∧
          (t.id ≠ tid → t' = t) := by
  intro tasks tid j t hj _hfailed
  refine ⟨if t.id = tid then
            { t with status := "pending", progress := 0, errorMessage := none }
          else t, ?_, ?_, ?_, ?_⟩
  · simp [Frontend.retryTask, List.getElem?_map, hj]
  · by_cases h : t.id = tid <;> simp [h]
  · intro h; simp [h]
  · intro h; simp [h]

/-- Witness for the amended C5 theorem at the source's mock data: task
`"3"` is `failed` there, and retrying it yields status `"pending"`,
progress `0` and a cleared error message with the steps unchanged. -/
theorem retry_task_behaviour_witness :
    ∃ t', (Frontend.retryTask Frontend.mockTasks "3")[1]? = some t' ∧
      t'.steps = (Frontend.mockTasks.get ⟨1, by decide⟩).steps ∧
      t'.status = "pending" ∧ t'.progress = 0 ∧ t'.errorMessage = none := by
  obtain ⟨t', h1, h2, h3, _⟩ :=
    retry_task_behaviour Frontend.mockTasks "3" 1
      (Frontend.mockTasks.get ⟨1, by decide⟩) (by decide) (by decide)
  refine ⟨t', h1, h2, ?_⟩
  obtain ⟨ha, hb, hc⟩ := h3 (by decide)
  exact ⟨ha, hb, hc⟩

namespace Engine

/-! ### Concrete reachability derivations -/

/-- The two-step chain plan is accepted, so its initial state is an
initial scheduler state. -/
theorem chainS0_init : InitState chainS0 :=
  ⟨seedRegistry, chainDescs, chainSteps, rfl, rfl⟩

/-- The dispatch of step 0 from the chain plan's initial state. -/
theorem chain_step01 : SchedStep chainS0 chainS1 :=
  SchedStep.start chainS0 0
    { tool := fileReadTool, deps := [], status := .ready }
    rfl (Or.inr rfl) rfl (by decide) (by decide) (by decide)

/-- The completion of step 0. -/
theorem chain_step12 : SchedStep chainS1 chainS2 :=
  SchedStep.complete chainS1 0
    { tool := fileReadTool, deps := [], status := .running }
    rfl rfl

/-- The dispatch of step 1 once its dependency 0 is completed. -/
theorem chain_step23 : SchedStep chainS2 chainS3 :=
  SchedStep.start chainS2 1
    { tool := fileReadTool, deps := [0], status := .pending }
    rfl (Or.inl rfl) rfl (by decide) (by decide) (by decide)

/-- The state with step 0 running and step 1 pending is reachable. -/
theorem reach_chainS1 : Reachable chainS1 :=
  ⟨chainS0, chainS0_init,
    Relation.ReflTransGen.tail Relation.ReflTransGen.refl chain_step01⟩

/-- The state with step 0 completed is reachable. -/
theorem reach_chainS2 : Reachable chainS2 :=
  ⟨chainS0, chainS0_init,
    Relation.ReflTransGen.tail
      (Relation.ReflTransGen.tail Relation.ReflTransGen.refl chain_step01)
      chain_step12⟩

/-- The state with step 1 running after its dependency completed is
reachable. -/
theorem reach_chainS3 : Reachable chainS3 :=
  ⟨chainS0, chainS0_init,
    Relation.ReflTransGen.tail
      (Relation.ReflTransGen.tail
        (Relation.ReflTransGen.tail Relation.ReflTransGen.refl chain_step01)
        chain_step12)
      chain_step23⟩

/-- The state obtained by cancelling the task while step 0 runs is
reachable. -/
theorem reach_cancelledS : Reachable cancelledS :=
  ⟨chainS0, chainS0_init,
    Relation.ReflTransGen.tail
      (Relation.ReflTransGen.tail Relation.ReflTransGen.refl chain_step01)
      (SchedStep.cancel chainS1)⟩

/-- The gated plan is accepted, so its initial state is an initial
scheduler state. -/
theorem gateS0_init : InitState gateS0 :=
  ⟨seedRegistry, gateDescs, gateSteps, rfl, rfl⟩

/-- The approved-and-dispatched state of the gated plan is reachable:
`approve_step 0` is recorded first, then the step starts. -/
theorem reach_gateS2 : Reachable gateS2 :=
  ⟨gateS0, gateS0_init,
    Relation.ReflTransGen.tail
      (Relation.ReflTransGen.tail Relation.ReflTransGen.refl
        (SchedStep.approve gateS0 0))
      (SchedStep.start gateS1 0
        { tool := shellTool, deps := [], status := .ready }
        rfl (Or.inr rfl) rfl (by decide) (by decide) (by decide))⟩

/-- The recomputed progress percentage is always at most 100. -/
theorem recomputeProgress_le (steps : List StepRec) :
    recomputeProgress steps ≤ 100 := by
  unfold recomputeProgress
  split_ifs with h
  · omega
  · have hc : completedCount steps ≤ steps.length := by
      unfold completedCount
      exact List.length_filter_le _ _
    calc completedCount steps * 100 / steps.length
        ≤ steps.length * 100 / steps.length :=
          Nat.div_le_div_right (Nat.mul_le_mul_right 100 hc)
      _ = 100 := Nat.mul_div_cancel_left 100 (Nat.pos_of_ne_zero h)

end Engine

/-- C1: in every reachable scheduler state, every `running` step has all
the steps in its `dependency_ids` in status `completed`; since `completed`
is stable, no step ever enters `running` before its dependencies have all
completed. -/
theorem dependency_ordering :
    ∀ s, Engine.Reachable s → ∀ (i : Nat) (r : Engine.StepRec),
      s.steps[i]? = some r → r.status = Engine.StepStatus.running →
      Engine.depsDone s.steps r = true :=
  fun s hs => (Engine.reachable_inv s hs).depsInv

/-- Witness for C1: in the reachable state of the two-step chain where
step 1 is running, its dependency list `[0]` is fully completed. -/
theorem dependency_ordering_witness :
    Engine.depsDone Engine.chainS3.steps
      { tool := Engine.fileReadTool, deps := [0],
        status := Engine.StepStatus.running } = true :=
  dependency_ordering Engine.chainS3 Engine.reach_chainS3 1
    { tool := Engine.fileReadTool, deps := [0],
      status := Engine.StepStatus.running } rfl rfl

/-- C3 counterexample: the seeded `tools` row for `shell_exec`
(src/unnamed/part_010 lines 26-65) carries `security_level = 'moderate'`,
not `'dangerous'` as the claim states (it is gated through
`requires_confirmation = true` instead). -/
theorem shell_exec_not_dangerous :
    Tools.findSeedTool "shell_exec" = some
      { name := "shell_exec", category := "system",
        securityLevel := Tools.SecurityLevel.moderate,
        requiresConfirmation := true } ∧
    Tools.SecurityLevel.moderate ≠ Tools.SecurityLevel.dangerous :=
  ⟨rfl, by decide⟩

/-- C3 (amended): `shell_exec` is seeded with `security_level = moderate`
and `requires_confirmation = true`; in the modelled engine any step whose
tool is confirmation-gated (`requires_confirmation` or `dangerous`) is
never `running` without a previously recorded `approve_step` for it. -/
theorem shell_exec_confirmation_gate :
    (Tools.findSeedTool "shell_exec").map
        (fun t => (t.securityLevel, t.requiresConfirmation)) =
      some (Tools.SecurityLevel.moderate, true) ∧
    ∀ s, Engine.Reachable s → ∀ (i : Nat) (r : Engine.StepRec),
      s.steps[i]? = some r → r.status = Engine.StepStatus.running →
      Engine.gatedTool r.tool = true → i ∈ s.approved :=
  ⟨rfl, fun s hs => (Engine.reachable_inv s hs).gateInv⟩

/-- Witness for the amended C3 theorem: in the reachable state where the
gated `shell_exec` step is running, its approval is recorded. -/
theorem shell_exec_confirmation_gate_witness :
    (0 : Nat) ∈ Engine.gateS2.approved :=
  shell_exec_confirmation_gate.2 Engine.gateS2 Engine.reach_gateS2 0
    { tool := Engine.shellTool, deps := [],
      status := Engine.StepStatus.running } rfl rfl (by decide)

/-- Witness for the amended C4 theorem: cancelling task `"2"` of the mock
state keeps its steps array, and in the reachable engine state cancelled
mid-run, step 0 is not running. -/
theorem cancel_task_behaviour_witness :
    (∃ t', (Frontend.cancelTask Frontend.mockTasks "2")[0]? = some t' ∧
      t'.steps = (Frontend.mockTasks.get ⟨0, by decide⟩).steps ∧
      t'.status = "cancelled") ∧
    { tool := Engine.fileReadTool, deps := [],
      status := Engine.StepStatus.cancelled : Engine.StepRec }.status ≠
      Engine.StepStatus.running := by
  constructor
  · obtain ⟨t', h1, h2, h3, _⟩ :=
      cancel_task_behaviour.1 Frontend.mockTasks "2" 0
        (Frontend.mockTasks.get ⟨0, by decide⟩) (by decide)
    exact ⟨t', h1, h2, h3 (by decide)⟩
  · exact cancel_task_behaviour.2 Engine.cancelledS Engine.reach_cancelledS rfl 0
      { tool := Engine.fileReadTool, deps := [],
        status := Engine.StepStatus.cancelled } rfl

/-- C6: with `command` present and a configured `timeout`, a timed-out
subprocess makes `shell_exec` return (not raise) a failure dict whose
`error` is the timeout message, and a normally completed subprocess makes
it return `success = true` with the captured `stdout`, `stderr` and
return code. -/
theorem shell_exec_timeout_contract :
    ∀ (cmd : String) (wd : Option String) (t : Nat) (out err : String) (rc : Int),
      Tools.shellExec { command := some cmd, workingDir := wd, timeout := some t }
          Tools.SubprocessOutcome.timeoutExpired =
        .ok { success := false, stdout := none, stderr := none,
              returnCode := none, error := some (Tools.timeoutMessage t) } ∧
      Tools.shellExec { command := some cmd, workingDir := wd, timeout := some t }
          (Tools.SubprocessOutcome.completed out err rc) =
        .ok { success := true, stdout := some out, stderr := some err,
              returnCode := some rc, error := none } :=
  fun _ _ _ _ _ _ => ⟨rfl, rfl⟩

/-- C7: in every reachable scheduler state the stored progress equals the
State Tracker's formula `completed_steps * 100 / total_steps` and lies
between 0 and 100 (the lower bound holds because the value is a natural
number), matching the `progress_percentage` CHECK constraint of
src/unnamed/part_003 line 76. -/
theorem progress_formula :
    ∀ s, Engine.Reachable s →
      (s.steps.length ≠ 0 →
        s.progress = Engine.completedCount s.steps * 100 / s.steps.length) ∧
      s.progress ≤ 100 := by
  intro s hs
  have hp := (Engine.reachable_inv s hs).progressInv
  constructor
  · intro hne
    rw [hp]
    unfold Engine.recomputeProgress
    rw [if_neg hne]
  · rw [hp]
    exact Engine.recomputeProgress_le s.steps

/-- Witness for C7: with one of the two chain steps completed, the stored
progress is the recomputed 50 percent and is at most 100. -/
theorem progress_formula_witness :
    Engine.chainS2.progress =
        Engine.completedCount Engine.chainS2.steps * 100 /
          Engine.chainS2.steps.length ∧
      Engine.chainS2.progress ≤ 100 :=
  ⟨(progress_formula Engine.chainS2 Engine.reach_chainS2).1 (by decide),
    (progress_formula Engine.chainS2 Engine.reach_chainS2).2⟩

/-- The successful `text_analyze` result always carries `success = true`,
whichever analysis branch (or the fall-through) built it. -/
theorem analyzeResult_success (text atype : String) (words : List String) :
    (Tools.analyzeResult text atype words).success = true := by
  unfold Tools.analyzeResult
  split_ifs <;> rfl

/-- C9: every registered tool of the seed script — `shell_exec`,
`file_read`, `file_write`, `file_list`, `web_search`, `browser_navigate`,
`text_analyze`, `json_parse` — has a total `execute`: with its
schema-required parameters present (the only dict accesses outside the
`try` block), it returns a result dict for every runtime outcome (no
exception escapes the `try`), and whenever `success` is `false` the dict
carries an `error` string. -/
theorem tool_execute_total :
    (∀ (p : Tools.ShellParams) (o : Tools.SubprocessOutcome),
      p.command.isSome = true →
        ∃ r, Tools.shellExec p o = .ok r ∧ (r.success || r.error.isSome) = true) ∧
    (∀ (p : Tools.FileReadParams) (o : Tools.FileReadOutcome),
      p.path.isSome = true →
        ∃ r, Tools.fileRead p o = .ok r ∧ (r.success || r.error.isSome) = true) ∧
    (∀ (p : Tools.FileWriteParams) (o : Tools.FileWriteOutcome),
      p.path.isSome = true → p.content.isSome = true →
        ∃ r, Tools.fileWrite p o = .ok r ∧ (r.success || r.error.isSome) = true) ∧
    (∀ (p : Tools.FileListParams) (o : Tools.FileListOutcome),
      p.path.isSome = true →
        ∃ r, Tools.fileList p o = .ok r ∧ (r.success || r.error.isSome) = true) ∧
    (∀ (p : Tools.WebSearchParams) (o : Tools.WebSearchOutcome),
      p.query.isSome = true →
        ∃ r, Tools.webSearch p o = .ok r ∧ (r.success || r.error.isSome) = true) ∧
    (∀ (p : Tools.NavParams) (o : Tools.FetchOutcome),
      p.url.isSome = true →
        ∃ r, Tools.browserNavigate p o = .ok r ∧
          (r.success || r.error.isSome) = true) ∧
    (∀ (p : Tools.TextAnalyzeParams) (o : Tools.TextAnalyzeOutcome),
      p.text.isSome = true →
        ∃ r, Tools.textAnalyze p o = .ok r ∧ (r.success || r.error.isSome) = true) ∧
    (∀ (p : Tools.JsonParams) (o : Tools.LoadsOutcome),
      p.jsonString.isSome = true →
        ∃ r, Tools.jsonParse p o = .ok r ∧ (r.success || r.error.isSome) = true) := by
  refine ⟨?_, ?_, ?_, ?_, ?_, ?_, ?_, ?_⟩
  · intro p o hp
    cases hc : p.command with
    | none => rw [hc] at hp; exact absurd hp (by simp)
    | some c =>
      unfold Tools.shellExec
      rw [hc]
      cases o with
      | completed out err rc => exact ⟨_, rfl, rfl⟩
      | timeoutExpired => exact ⟨_, rfl, rfl⟩
      | raised m => exact ⟨_, rfl, rfl⟩
  · intro p o hp
    cases hc : p.path with
    | none => rw [hc] at hp; exact absurd hp (by simp)
    | some path =>
      unfold Tools.fileRead
      rw [hc]
      cases o with
      | missing => exact ⟨_, rfl, rfl⟩
      | opened lines size => exact ⟨_, rfl, rfl⟩
      | raised m => exact ⟨_, rfl, rfl⟩
  · intro p o hp hc2
    cases hc : p.path with
    | none => rw [hc] at hp; exact absurd hp (by simp)
    | some path =>
      cases hcon : p.content with
      | none => rw [hcon] at hc2; exact absurd hc2 (by simp)
      | some content =>
        unfold Tools.fileWrite
        rw [hc, hcon]
        cases o with
        | written n => exact ⟨_, rfl, rfl⟩
        | raised m => exact ⟨_, rfl, rfl⟩
  · intro p o hp
    cases hc : p.path with
    | none => rw [hc] at hp; exact absurd hp (by simp)
    | some path =>
      unfold Tools.fileList
      rw [hc]
      cases o with
      | missing => exact ⟨_, rfl, rfl⟩
      | listed entries => exact ⟨_, rfl, rfl⟩
      | raised m => exact ⟨_, rfl, rfl⟩
  · intro p o hp
    cases hc : p.query with
    | none => rw [hc] at hp; exact absurd hp (by simp)
    | some query =>
      unfold Tools.webSearch
      rw [hc]
      cases o with
      | response a at_ au related => exact ⟨_, rfl, rfl⟩
      | raised m => exact ⟨_, rfl, rfl⟩
  · intro p o hp
    cases hc : p.url with
    | none => rw [hc] at hp; exact absurd hp (by simp)
    | some u =>
      unfold Tools.browserNavigate
      rw [hc]
      cases o with
      | fetched title code text links => exact ⟨_, rfl, rfl⟩
      | raised m => exact ⟨_, rfl, rfl⟩
  · intro p o hp
    cases hc : p.text with
    | none => rw [hc] at hp; exact absurd hp (by simp)
    | some text =>
      unfold Tools.textAnalyze
      rw [hc]
      cases o with
      | computed words => exact ⟨_, rfl, by rw [analyzeResult_success]; rfl⟩
      | raised m => exact ⟨_, rfl, rfl⟩
  · intro p o hp
    cases hc : p.jsonString with
    | none => rw [hc] at hp; exact absurd hp (by simp)
    | some js =>
      unfold Tools.jsonParse
      rw [hc]
      cases o with
      | parsed v => cases v <;> exact ⟨_, rfl, rfl⟩
      | decodeError m => exact ⟨_, rfl, rfl⟩
      | raised m => exact ⟨_, rfl, rfl⟩

/-- Witness for C9: each of the eight tools applied at a concrete input
with its required parameters present — failure outcomes all come back as
returned dicts with an error string, success outcomes with
`success = true`. -/
theorem tool_execute_total_witness :
    (∃ r, Tools.shellExec
        { command := some "ls", workingDir := none, timeout := none }
        (Tools.SubprocessOutcome.raised "boom") = .ok r ∧
        (r.success || r.error.isSome) = true) ∧
    (∃ r, Tools.fileRead
        { path := some "/tmp/a.txt", encoding := none, maxLines := none }
        Tools.FileReadOutcome.missing = .ok r ∧
        (r.success || r.error.isSome) = true) ∧
    (∃ r, Tools.fileWrite
        { path := some "/tmp/a.txt", content := some "hi",
          encoding := none, append := none }
        (Tools.FileWriteOutcome.raised "Read-only file system") = .ok r ∧
        (r.success || r.error.isSome) = true) ∧
    (∃ r, Tools.fileList
        { path := some "/tmp", recursive := none, showHidden := none }
        Tools.FileListOutcome.missing = .ok r ∧
        (r.success || r.error.isSome) = true) ∧
    (∃ r, Tools.webSearch
        { query := some "lean", maxResults := none, region := none }
        (Tools.WebSearchOutcome.raised "timeout") = .ok r ∧
        (r.success || r.error.isSome) = true) ∧
    (∃ r, Tools.browserNavigate
        { url := some "http://example.invalid", extractText := none,
          extractLinks := none }
        (Tools.FetchOutcome.raised "connection refused") = .ok r ∧
        (r.success || r.error.isSome) = true) ∧
    (∃ r, Tools.textAnalyze
        { text := some "hola. bueno", analysisType := some "sentiment" }
        (Tools.TextAnalyzeOutcome.computed ["hola", "bueno"]) = .ok r ∧
        (r.success || r.error.isSome) = true) ∧
    (∃ r, Tools.jsonParse
        { jsonString := some "not json", prettyPrint := none }
        (Tools.LoadsOutcome.decodeError "Expecting value") = .ok r ∧
        (r.success || r.error.isSome) = true) :=
  ⟨tool_execute_total.1
      { command := some "ls", workingDir := none, timeout := none }
      (Tools.SubprocessOutcome.raised "boom") rfl,
    tool_execute_total.2.1
      { path := some "/tmp/a.txt", encoding := none, maxLines := none }
      Tools.FileReadOutcome.missing rfl,
    tool_execute_total.2.2.1
      { path := some "/tmp/a.txt", content := some "hi",
        encoding := none, append := none }
      (Tools.FileWriteOutcome.raised "Read-only file system") rfl rfl,
    tool_execute_total.2.2.2.1
      { path := some "/tmp", recursive := none, showHidden := none }
      Tools.FileListOutcome.missing rfl,
    tool_execute_total.2.2.2.2.1
      { query := some "lean", maxResults := none, region := none }
      (Tools.WebSearchOutcome.raised "timeout") rfl,
    tool_execute_total.2.2.2.2.2.1
      { url := some "http://example.invalid", extractText := none,
        extractLinks := none }
      (Tools.FetchOutcome.raised "connection refused") rfl,
    tool_execute_total.2.2.2.2.2.2.1
      { text := some "hola. bueno", analysisType := some "sentiment" }
      (Tools.TextAnalyzeOutcome.computed ["hola", "bueno"]) rfl,
    tool_execute_total.2.2.2.2.2.2.2
      { jsonString := some "not json", prettyPrint := none }
      (Tools.LoadsOutcome.decodeError "Expecting value") rfl⟩

/-- C10: for every URL and every fetched page, `browser_navigate` returns
a result whose `text` holds at most 5000 characters and whose `links`
hold at most 50 entries, whatever the size of the page. -/
theorem browser_navigate_bounded :
    ∀ (url : String) (et el : Option Bool) (o : Tools.FetchOutcome),
      ∃ r, Tools.browserNavigate
          { url := some url, extractText := et, extractLinks := el } o = .ok r ∧
        Tools.textLength r ≤ 5000 ∧ Tools.linksCount r ≤ 50 := by
  intro url et el o
  cases o with
  | fetched title code text links =>
    refine ⟨_, rfl, ?_, ?_⟩
    · unfold Tools.textLength
      cases hdt : et.getD true <;> simp [hdt, List.length_take]
    · unfold Tools.linksCount
      cases hdl : el.getD false <;> simp [hdl, List.length_take]
  | raised m =>
    exact ⟨_, rfl, by simp [Tools.textLength], by simp [Tools.linksCount]⟩

namespace Engine

/-- Appending a batch of nodes whose dependencies all lie in the previous
order preserves topological soundness, provided the batch is disjoint from
the previous order. -/
theorem topoSound_append (dep : Nat → List Nat) (order ready : List Nat)
    (h4 : TopoSound dep order)
    (hsub : ∀ u ∈ ready, ∀ d ∈ dep u, d ∈ order)
    (hdisj : ∀ u ∈ ready, u ∉ order) :
    TopoSound dep (order ++ ready) := by
  intro u hu d hd
  rcases List.mem_append.mp hu with hu | hu
  · obtain ⟨hdo, hlt⟩ := h4 u hu d hd
    refine ⟨List.mem_append_left _ hdo, ?_⟩
    rw [List.indexOf_append_of_mem hdo, List.indexOf_append_of_mem hu]
    exact hlt
  · have hdo : d ∈ order := hsub u hu d hd
    have huo : u ∉ order := hdisj u hu
    refine ⟨List.mem_append_left _ hdo, ?_⟩
    rw [List.indexOf_append_of_mem hdo, List.indexOf_append_of_not_mem huo]
    have hlt := List.indexOf_lt_length.mpr hdo
    omega

/-- Invariant of the Kahn loop: starting from a nodup order that is
topologically sound and a disjoint nodup remaining set, the loop's result
is nodup, drawn from the order and the remaining set, and topologically
sound. -/
theorem kahnLoop_invariant (dep : Nat → List Nat) :
    ∀ (fuel : Nat) (remaining order : List Nat),
      order.Nodup → remaining.Nodup → (∀ x ∈ remaining, x ∉ order) →
      TopoSound dep order →
      (kahnLoop dep fuel remaining order).Nodup ∧
      (∀ x ∈ kahnLoop dep fuel remaining order, x ∈ order ∨ x ∈ remaining) ∧
      TopoSound dep (kahnLoop dep fuel remaining order) := by
  intro fuel
  induction fuel with
  | zero =>
    intro remaining order h1 _h2 _h3 h4
    exact ⟨h1, fun x hx => Or.inl hx, h4⟩
  | succ fuel ih =>
    intro remaining order h1 h2 h3 h4
    by_cases hready :
        remaining.filter (fun v => (dep v).all (fun d => order.contains d)) = []
    · have hres : kahnLoop dep (fuel + 1) remaining order = order := by
        rw [kahnLoop, if_pos hready]
      rw [hres]
      exact ⟨h1, fun x hx => Or.inl hx, h4⟩
    · have hres : kahnLoop dep (fuel + 1) remaining order =
          kahnLoop dep fuel
            (remaining.filter (fun v => !((dep v).all (fun d => order.contains d))))
            (order ++
              remaining.filter (fun v => (dep v).all (fun d => order.contains d))) := by
        rw [kahnLoop, if_neg hready]
      rw [hres]
      have n1 : (order ++
          remaining.filter (fun v => (dep v).all (fun d => order.contains d))).Nodup := by
        rw [List.nodup_append]
        refine ⟨h1, h2.filter _, ?_⟩
        intro a ha har
        exact h3 a (List.mem_of_mem_filter har) ha
      have n2 : (remaining.filter
          (fun v => !((dep v).all (fun d => order.contains d)))).Nodup :=
        h2.filter _
      have n3 : ∀ x ∈ remaining.filter
            (fun v => !((dep v).all (fun d => order.contains d))),
          x ∉ order ++
            remaining.filter (fun v => (dep v).all (fun d => order.contains d)) := by
        intro x hx
        have hxr : x ∈ remaining := List.mem_of_mem_filter hx
        have hnp := (List.mem_filter.mp hx).2
        rw [Bool.not_eq_true'] at hnp
        rw [List.mem_append]
        rintro (h | h)
        · exact h3 x hxr h
        · have hp := (List.mem_filter.mp h).2
          rw [hnp] at hp
          exact absurd hp (by simp)
      have n4 : TopoSound dep (order ++
          remaining.filter (fun v => (dep v).all (fun d => order.contains d))) := by
        apply topoSound_append dep order _ h4
        · intro u hu d hd
          have hp := (List.mem_filter.mp hu).2
          have := List.all_eq_true.mp hp d hd
          exact List.elem_iff.mp this
        · intro u hu
          exact h3 u (List.mem_of_mem_filter hu)
      obtain ⟨ha, hb, hc⟩ := ih _ _ n1 n2 n3 n4
      refine ⟨ha, ?_, hc⟩
      intro x hx
      rcases hb x hx with hmem | hmem
      · rcases List.mem_append.mp hmem with h | h
        · exact Or.inl h
        · exact Or.inr (List.mem_of_mem_filter h)
      · exact Or.inr (List.mem_of_mem_filter hmem)

/-- Along a topologically sound order, following dependency edges strictly
decreases the position, transitively. -/
theorem topoSound_transGen (dep : Nat → List Nat) (res : List Nat)
    (hS : TopoSound dep res) :
    ∀ u v, Relation.TransGen (fun a b => b ∈ dep a) u v → u ∈ res →
      v ∈ res ∧ res.indexOf v < res.indexOf u := by
  intro u v htg
  induction htg with
  | single h => intro hu; exact hS u hu _ h
  | tail _htg h ih =>
    intro hu
    obtain ⟨hb, hltb⟩ := ih hu
    obtain ⟨hv, hltv⟩ := hS _ hb _ h
    exact ⟨hv, lt_trans hltv hltb⟩

/-- A transitive dependency chain starts with an edge. -/
theorem transGen_exists_edge {α : Type} (r : α → α → Prop) (a b : α)
    (h : Relation.TransGen r a b) : ∃ c, r a c := by
  induction h with
  | single h => exact ⟨_, h⟩
  | tail _ _ ih => exact ih

end Engine

/-- C2: every submitted plan whose dependency relation contains a cycle is
rejected by the Plan Compiler with `PlanInvalidError` — Kahn's algorithm
leaves the cycle's nodes unvisited, so the emitted order is shorter than
the plan — and the error value carries no Step records, so no stored
state is created.  The hypothesis requires every tool name to resolve,
since unknown tools are reported first as `UnknownToolError`. -/
theorem plan_cycle_rejected :
    ∀ (registry : List Engine.ToolDescriptor) (descs : List Engine.StepDesc),
      (Engine.resolveTools registry descs).isSome = true →
      Engine.HasCycle descs →
      Engine.compilePlan registry descs = .error .planInvalid := by
  intro registry descs hres hcyc
  obtain ⟨v, htg⟩ := hcyc
  have htg' : Relation.TransGen (fun a b => b ∈ Engine.depsAt descs a) v v := by
    refine Relation.TransGen.mono ?_ htg
    intro a b hab
    obtain ⟨d, hd, hb⟩ := hab
    unfold Engine.depsAt
    rw [hd]
    simpa using hb
  have hvlt : v < descs.length := by
    obtain ⟨w, hw⟩ := Engine.transGen_exists_edge _ v v htg
    obtain ⟨d0, hd0, _⟩ := hw
    by_contra hge
    rw [List.getElem?_eq_none (Nat.le_of_not_lt hge)] at hd0
    exact absurd hd0 (by simp)
  obtain ⟨hnodup, hmem, hS⟩ :=
    Engine.kahnLoop_invariant (Engine.depsAt descs) (descs.length + 1)
      (List.range descs.length) [] List.nodup_nil (List.nodup_range _)
      (by intro x _hx; exact List.not_mem_nil x)
      (by intro u hu; exact absurd hu (List.not_mem_nil u))
  have hvnot : v ∉ Engine.kahnOrder descs := by
    intro hv
    have hlt :=
      (Engine.topoSound_transGen (Engine.depsAt descs) _ hS v v htg' hv).2
    exact absurd hlt (lt_irrefl _)
  have hsub : Engine.kahnOrder descs ⊆ (List.range descs.length).erase v := by
    intro x hx
    rcases hmem x hx with h | h
    · exact absurd h (List.not_mem_nil x)
    · refine (List.mem_erase_of_ne ?_).mpr h
      intro hxv
      rw [hxv] at hx
      exact hvnot hx
  have hlen : (Engine.kahnOrder descs).length ≠ descs.length := by
    have hle := (List.Nodup.subperm hnodup hsub).length_le
    rw [List.length_erase_of_mem (by simp [hvlt]), List.length_range] at hle
    have hle2 : (Engine.kahnOrder descs).length ≤ descs.length - 1 := hle
    omega
  unfold Engine.compilePlan
  cases hr : Engine.resolveTools registry descs with
  | none => rw [hr] at hres; exact absurd hres (by simp)
  | some resolved =>
    simp only []
    rw [if_neg hlen]

/-- Witness for C2: the two-step plan in which each step depends on the
other resolves against the seeded registry, has a cycle, and is rejected
with `PlanInvalidError`. -/
theorem plan_cycle_rejected_witness :
    Engine.compilePlan Engine.seedRegistry Engine.cycleDescs =
      .error .planInvalid := by
  apply plan_cycle_rejected Engine.seedRegistry Engine.cycleDescs rfl
  have h01 : Engine.DependsOn Engine.cycleDescs 0 1 :=
    ⟨{ toolName := "file_read", deps := [1] }, rfl, by decide⟩
  have h10 : Engine.DependsOn Engine.cycleDescs 1 0 :=
    ⟨{ toolName := "file_read", deps := [0] }, rfl, by decide⟩
  exact ⟨0, Relation.TransGen.head h01 (Relation.TransGen.single h10)⟩
